import Mathlib

/-!
# Verification of the PennyLane-Lightning kernel-dispatch and adjoint layers

Shallow embedding of:
* `operations.hpp` — reference Eigen gate matrices and the operation lookup maps;
* `GateImplementationsAVX512.hpp` — the AVX512 kernel family entry points
  (crossover guard, reverse-wire dispatch, internal/external routing);
* `AlgUtil.hpp` — adjoint-differentiation helpers (`applyOperationAdj`,
  `applyObservable(s)`, `applyOperationsAdj`) in their sequential elaboration;
* the kernel dispatch map (`PriorityDispatchSet` / `OperationKernelMap`),
  modelled from the spec (its header is not among the provided sources; its
  tests are).

Amplitude buffers are embedded as functions `ℕ → ℂ` (index = basis state);
machine floating point is embedded as exact real/complex arithmetic.
-/

set_option maxHeartbeats 1000000
set_option linter.unnecessarySeqFocus false
set_option linter.unreachableTactic false
set_option linter.unusedTactic false
set_option linter.unusedVariables false

/-- Floating-point precisions supported by the AVX512 kernel family
(`PrecisionT` is either `float` or `double`; anything else is a
compile-time error in the source). -/
inductive Precision where
  | float
  | double
deriving DecidableEq

/-- `packed_bytes` of `GateImplementationsAVX512` (64-byte registers). -/
def packedBytes : ℕ := 64

/-- `sizeof(PrecisionT)` in bytes. -/
def precBytes : Precision → ℕ
  | .float => 4
  | .double => 8

/-- Modelled from the spec: `AVX::internal_wires_v<packed_size>` from the
missing `avx_common/AVX512Concept.hpp`.  The spec classifies a wire as
internal when its reverse-wire index is below log2 of the packing width in
complex amplitudes; at 64-byte packing that is 3 for `float` and 2 for
`double`, matching the explicit guard constants written in `applyS` and
`applySWAP`. -/
def internalWires : Precision → ℕ
  | .float => 3
  | .double => 2

/-- The internal-wire count is log2 of the packing width measured in
complex amplitudes (`packed_bytes / sizeof(PrecisionT) / 2`). -/
lemma internalWires_eq_log2 (p : Precision) :
    internalWires p = Nat.log2 (packedBytes / precBytes p / 2) := by
  cases p <;> simp [internalWires, packedBytes, precBytes, Nat.log2]

/-- The reverse wire index `num_qubits - wire - 1`: the bit position inside
an amplitude index addressed by every kernel. -/
def revWire (numQubits wire : ℕ) : ℕ := numQubits - wire - 1

/-- The partner amplitude index obtained by flipping bit `b`. -/
def flipBit (b i : ℕ) : ℕ := i ^^^ 2 ^ b

/-- Generic single-qubit gate application at bit position `b`: the
amplitude group `{i with bit b = 0, i with bit b = 1}` is left-multiplied
by the 2×2 gate matrix (the generic-family algorithm of the spec, and the
contraction performed by the Eigen reference path of `operations.hpp`). -/
def applyGate1q (m : Matrix (Fin 2) (Fin 2) ℂ) (b : ℕ) (s : ℕ → ℂ) : ℕ → ℂ :=
  fun i =>
    if i.testBit b then m 1 0 * s (flipBit b i) + m 1 1 * s i
    else m 0 0 * s i + m 0 1 * s (flipBit b i)

lemma testBit_flipBit_self (b i : ℕ) : (flipBit b i).testBit b = !(i.testBit b) := by
  simp [flipBit, Nat.testBit_xor, Nat.testBit_two_pow_self, Bool.xor_true]

lemma flipBit_flipBit (b i : ℕ) : flipBit b (flipBit b i) = i := by
  simp [flipBit, Nat.xor_assoc]

/-- Composing two single-qubit applications at the same bit is the
application of the matrix product. -/
lemma applyGate1q_comp (m m' : Matrix (Fin 2) (Fin 2) ℂ) (b : ℕ) (s : ℕ → ℂ) :
    applyGate1q m b (applyGate1q m' b s) = applyGate1q (m * m') b s := by
  funext i
  simp only [applyGate1q, Matrix.mul_apply, Fin.sum_univ_two,
    testBit_flipBit_self, flipBit_flipBit]
  cases h : i.testBit b <;> simp [h] <;> ring

lemma applyGate1q_one (b : ℕ) (s : ℕ → ℂ) : applyGate1q 1 b s = s := by
  funext i
  simp only [applyGate1q, Matrix.one_apply]
  cases h : i.testBit b <;> simp [h]

/-! ## Reference gate matrices (`operations.hpp`) -/

/-- `SQRT_2 = sqrt(2)` of `operations.hpp`, as a complex scalar. -/
noncomputable def SQRT_2 : ℂ := ((Real.sqrt 2 : ℝ) : ℂ)

/-- `X()` of `operations.hpp`. -/
def opX : Matrix (Fin 2) (Fin 2) ℂ := Matrix.of ![![0, 1], ![1, 0]]

/-- `Y()` of `operations.hpp` (`{{0, NEGATIVE_IMAG}, {IMAG, 0}}`). -/
def opY : Matrix (Fin 2) (Fin 2) ℂ := Matrix.of ![![0, -Complex.I], ![Complex.I, 0]]

/-- `Z()` of `operations.hpp`. -/
def opZ : Matrix (Fin 2) (Fin 2) ℂ := Matrix.of ![![1, 0], ![0, -1]]

/-- `H()` of `operations.hpp`. -/
noncomputable def opH : Matrix (Fin 2) (Fin 2) ℂ :=
  Matrix.of ![![1 / SQRT_2, 1 / SQRT_2], ![1 / SQRT_2, -(1 / SQRT_2)]]

/-- `S()` of `operations.hpp` (`{{1, 0}, {0, IMAG}}`). -/
def opS : Matrix (Fin 2) (Fin 2) ℂ := Matrix.of ![![1, 0], ![0, Complex.I]]

/-- `RX(parameter)` of `operations.hpp`: diagonal `cos(p/2)`,
off-diagonal `complex(0, sin(-p/2))`. -/
noncomputable def opRX (p : ℝ) : Matrix (Fin 2) (Fin 2) ℂ :=
  Matrix.of ![![((Real.cos (p / 2) : ℝ) : ℂ), Complex.I * ((Real.sin (-p / 2) : ℝ) : ℂ)],
              ![Complex.I * ((Real.sin (-p / 2) : ℝ) : ℂ), ((Real.cos (p / 2) : ℝ) : ℂ)]]

/-- `RY(parameter)` of `operations.hpp`. -/
noncomputable def opRY (p : ℝ) : Matrix (Fin 2) (Fin 2) ℂ :=
  Matrix.of ![![((Real.cos (p / 2) : ℝ) : ℂ), -((Real.sin (p / 2) : ℝ) : ℂ)],
              ![((Real.sin (p / 2) : ℝ) : ℂ), ((Real.cos (p / 2) : ℝ) : ℂ)]]

/-- `RZ(parameter)` of `operations.hpp`: `diag(e^{-ip/2}, e^{ip/2})`
(each written as `pow(M_E, complex(0, ∓p/2))`). -/
noncomputable def opRZ (p : ℝ) : Matrix (Fin 2) (Fin 2) ℂ :=
  Matrix.of ![![Complex.exp (Complex.I * ((-p / 2 : ℝ) : ℂ)), 0],
              ![0, Complex.exp (Complex.I * ((p / 2 : ℝ) : ℂ))]]

/-- `Rot(phi, theta, omega)` of `operations.hpp`. -/
noncomputable def opRot (phi theta omega : ℝ) : Matrix (Fin 2) (Fin 2) ℂ :=
  Matrix.of
    ![![Complex.exp (Complex.I * (((-phi - omega) / 2 : ℝ) : ℂ)) * ((Real.cos (theta / 2) : ℝ) : ℂ),
        -(Complex.exp (Complex.I * (((phi - omega) / 2 : ℝ) : ℂ)) * ((Real.sin (theta / 2) : ℝ) : ℂ))],
      ![Complex.exp (Complex.I * (((-phi + omega) / 2 : ℝ) : ℂ)) * ((Real.sin (theta / 2) : ℝ) : ℂ),
        Complex.exp (Complex.I * (((phi + omega) / 2 : ℝ) : ℂ)) * ((Real.cos (theta / 2) : ℝ) : ℂ)]]

/-- `CRX(parameter)` of `operations.hpp`, flattened from the rank-4 tensor
to a 4×4 matrix (row = (i,j), column = (k,l)). -/
noncomputable def opCRX (p : ℝ) : Matrix (Fin 4) (Fin 4) ℂ :=
  Matrix.of ![![1, 0, 0, 0],
              ![0, 1, 0, 0],
              ![0, 0, ((Real.cos (p / 2) : ℝ) : ℂ), Complex.I * ((Real.sin (-p / 2) : ℝ) : ℂ)],
              ![0, 0, Complex.I * ((Real.sin (-p / 2) : ℝ) : ℂ), ((Real.cos (p / 2) : ℝ) : ℂ)]]

/-- `CRY(parameter)` of `operations.hpp`, flattened to 4×4. -/
noncomputable def opCRY (p : ℝ) : Matrix (Fin 4) (Fin 4) ℂ :=
  Matrix.of ![![1, 0, 0, 0],
              ![0, 1, 0, 0],
              ![0, 0, ((Real.cos (p / 2) : ℝ) : ℂ), -((Real.sin (p / 2) : ℝ) : ℂ)],
              ![0, 0, ((Real.sin (p / 2) : ℝ) : ℂ), ((Real.cos (p / 2) : ℝ) : ℂ)]]

/-! ## AVX kernel semantics

The per-gate AVX512 worker kernels (`avx_common/ApplyPauliX.hpp` etc.) are
not among the provided sources; following the spec, the register-permutation
(`applyInternal`) and strided (`applyExternal`) paths of one gate are
performance variants computing the same analytic transformation, so both are
modelled by one semantic function per gate, acting at a bit position. -/

/-- Modelled from the spec: `AVX::ApplyPauliX` (`applyInternal`/`applyExternal`
from the missing `avx_common/ApplyPauliX.hpp`): an index-pair swap at bit `b`. -/
def pauliXKernel (b : ℕ) (s : ℕ → ℂ) : ℕ → ℂ := fun i => s (flipBit b i)

/-- Modelled from the spec: `AVX::ApplyPauliY` (missing
`avx_common/ApplyPauliY.hpp`): the Y action `|0⟩ ↦ i|1⟩, |1⟩ ↦ -i|0⟩`. -/
def pauliYKernel (b : ℕ) (s : ℕ → ℂ) : ℕ → ℂ :=
  fun i => if i.testBit b then Complex.I * s (flipBit b i) else -Complex.I * s (flipBit b i)

/-- Modelled from the spec: `AVX::ApplyPauliZ` (missing
`avx_common/ApplyPauliZ.hpp`): sign flip on the bit-set half. -/
def pauliZKernel (b : ℕ) (s : ℕ → ℂ) : ℕ → ℂ :=
  fun i => if i.testBit b then -s i else s i

/-- Modelled from the spec: `AVX::ApplyHadamard` (missing
`avx_common/ApplyHadamard.hpp`). -/
noncomputable def hadamardKernel (b : ℕ) (s : ℕ → ℂ) : ℕ → ℂ :=
  fun i => if i.testBit b then (s (flipBit b i) - s i) / SQRT_2
           else (s i + s (flipBit b i)) / SQRT_2

/-- Modelled from the spec: `AVX::ApplyS` (missing `avx_common/ApplyS.hpp`);
the inverse applies the conjugate phase. -/
def sKernel (b : ℕ) (inverse : Bool) (s : ℕ → ℂ) : ℕ → ℂ :=
  fun i => if i.testBit b then (if inverse then -Complex.I else Complex.I) * s i else s i

/-- Modelled from the spec: `AVX::ApplyRX` (missing `avx_common/ApplyRX.hpp`);
the matrix is computed analytically from the angle and the inverse flag
negates the angle. -/
noncomputable def rxKernel (b : ℕ) (inverse : Bool) (angle : ℝ) (s : ℕ → ℂ) : ℕ → ℂ :=
  fun i =>
    ((Real.cos (angle / 2) : ℝ) : ℂ) * s i +
      Complex.I * ((if inverse then Real.sin (angle / 2) else -Real.sin (angle / 2) : ℝ) : ℂ) *
        s (flipBit b i)

/-- Modelled from the spec: `AVX::ApplyRZ` (missing `avx_common/ApplyRZ.hpp`);
phases `e^{∓i·angle/2}` on the two halves, inverse negates the angle. -/
noncomputable def rzKernel (b : ℕ) (inverse : Bool) (angle : ℝ) (s : ℕ → ℂ) : ℕ → ℂ :=
  fun i =>
    if i.testBit b then
      Complex.exp (Complex.I * (((if inverse then -angle else angle) / 2 : ℝ) : ℂ)) * s i
    else
      Complex.exp (-(Complex.I * (((if inverse then -angle else angle) / 2 : ℝ) : ℂ))) * s i

/-- Modelled from the spec: `AVX::ApplySingleQubitOp` (missing
`avx_common/ApplySingleQubitOp.hpp`): applies an arbitrary 2×2 matrix at a
bit position, or its conjugate transpose when `inverse` is set. -/
noncomputable def singleQubitOpKernel (m : Matrix (Fin 2) (Fin 2) ℂ) (b : ℕ)
    (inverse : Bool) (s : ℕ → ℂ) : ℕ → ℂ :=
  applyGate1q (if inverse then m.conjTranspose else m) b s

/-- Index transposition of bits `b0` and `b1`. -/
def bitSwap (b0 b1 i : ℕ) : ℕ :=
  if i.testBit b0 = i.testBit b1 then i else i ^^^ (2 ^ b0 ^^^ 2 ^ b1)

/-- Modelled from the spec: `AVX::ApplySWAP` (missing
`avx_common/ApplySWAP.hpp`): amplitude permutation by transposing two bits. -/
def swapKernel (b0 b1 : ℕ) (s : ℕ → ℂ) : ℕ → ℂ := fun i => s (bitSwap b0 b1 i)

/-- Modelled from the spec: `AVX::ApplyCZ` (missing `avx_common/ApplyCZ.hpp`):
sign flip where both bits are set. -/
def czKernel (b0 b1 : ℕ) (s : ℕ → ℂ) : ℕ → ℂ :=
  fun i => if i.testBit b0 && i.testBit b1 then -s i else s i

/-- Modelled from the spec: `AVX::ApplyIsingZZ` (missing
`avx_common/ApplyIsingZZ.hpp`): phase `e^{-i·angle/2}` on the equal-bit
amplitudes and `e^{+i·angle/2}` on the rest; inverse negates the angle. -/
noncomputable def isingZZKernel (b0 b1 : ℕ) (inverse : Bool) (angle : ℝ)
    (s : ℕ → ℂ) : ℕ → ℂ :=
  fun i =>
    (if i.testBit b0 = i.testBit b1 then
        Complex.exp (-(Complex.I * (((if inverse then -angle else angle) / 2 : ℝ) : ℂ)))
      else
        Complex.exp (Complex.I * (((if inverse then -angle else angle) / 2 : ℝ) : ℂ))) * s i

/-- Modelled from the spec: `Gates::getRot` (missing `Gates.hpp`) computes
the same analytic single-qubit rotation matrix as `Rot` of `operations.hpp`. -/
noncomputable def getRot (phi theta omega : ℝ) : Matrix (Fin 2) (Fin 2) ℂ :=
  opRot phi theta omega

/-! ## Generic (LM) family entry points

`GateImplementationsLM.hpp` is not among the provided sources; each function
is modelled from the spec's generic-family contract: apply the gate matrix at
the reverse-wire bit position (fast paths compute the same transformation). -/

/-- Modelled from the spec: `GateImplementationsLM::applyPauliX`. -/
def lmApplyPauliX (n w : ℕ) (_inverse : Bool) (s : ℕ → ℂ) : ℕ → ℂ :=
  pauliXKernel (revWire n w) s

/-- Modelled from the spec: `GateImplementationsLM::applyPauliY`. -/
def lmApplyPauliY (n w : ℕ) (_inverse : Bool) (s : ℕ → ℂ) : ℕ → ℂ :=
  pauliYKernel (revWire n w) s

/-- Modelled from the spec: `GateImplementationsLM::applyPauliZ`. -/
def lmApplyPauliZ (n w : ℕ) (_inverse : Bool) (s : ℕ → ℂ) : ℕ → ℂ :=
  pauliZKernel (revWire n w) s

/-- Modelled from the spec: `GateImplementationsLM::applyHadamard`. -/
noncomputable def lmApplyHadamard (n w : ℕ) (_inverse : Bool) (s : ℕ → ℂ) : ℕ → ℂ :=
  hadamardKernel (revWire n w) s

/-- Modelled from the spec: `GateImplementationsLM::applyS`. -/
def lmApplyS (n w : ℕ) (inverse : Bool) (s : ℕ → ℂ) : ℕ → ℂ :=
  sKernel (revWire n w) inverse s

/-- Modelled from the spec: `GateImplementationsLM::applyRX`. -/
noncomputable def lmApplyRX (n w : ℕ) (inverse : Bool) (angle : ℝ) (s : ℕ → ℂ) : ℕ → ℂ :=
  rxKernel (revWire n w) inverse angle s

/-- Modelled from the spec: `GateImplementationsLM::applyRZ`. -/
noncomputable def lmApplyRZ (n w : ℕ) (inverse : Bool) (angle : ℝ) (s : ℕ → ℂ) : ℕ → ℂ :=
  rzKernel (revWire n w) inverse angle s

/-- Modelled from the spec: `GateImplementationsLM::applySingleQubitOp`. -/
noncomputable def lmApplySingleQubitOp (n : ℕ) (m : Matrix (Fin 2) (Fin 2) ℂ)
    (w : ℕ) (inverse : Bool) (s : ℕ → ℂ) : ℕ → ℂ :=
  singleQubitOpKernel m (revWire n w) inverse s

/-- Modelled from the spec: `GateImplementationsLM::applySWAP`
(`wires = [w0, w1]`). -/
def lmApplySWAP (n w0 w1 : ℕ) (_inverse : Bool) (s : ℕ → ℂ) : ℕ → ℂ :=
  swapKernel (revWire n w1) (revWire n w0) s

/-- Modelled from the spec: `GateImplementationsLM::applyCZ`. -/
def lmApplyCZ (n w0 w1 : ℕ) (_inverse : Bool) (s : ℕ → ℂ) : ℕ → ℂ :=
  czKernel (revWire n w1) (revWire n w0) s

/-- Modelled from the spec: `GateImplementationsLM::applyIsingZZ`. -/
noncomputable def lmApplyIsingZZ (n w0 w1 : ℕ) (inverse : Bool) (angle : ℝ)
    (s : ℕ → ℂ) : ℕ → ℂ :=
  isingZZKernel (revWire n w1) (revWire n w0) inverse angle s

/-- `CRZ(parameter)` of `operations.hpp`, flattened to 4×4. -/
noncomputable def opCRZ (p : ℝ) : Matrix (Fin 4) (Fin 4) ℂ :=
  Matrix.of ![![1, 0, 0, 0],
              ![0, 1, 0, 0],
              ![0, 0, Complex.exp (Complex.I * ((-p / 2 : ℝ) : ℂ)), 0],
              ![0, 0, 0, Complex.exp (Complex.I * ((p / 2 : ℝ) : ℂ))]]


/-! ## AVX512 kernel family entry points (`GateImplementationsAVX512.hpp`)

Each entry point mirrors the source's structure: the crossover guard
delegating to `GateImplementationsLM`, then a switch on the reverse wire
(`case 0/1/2` → `applyInternal<k>` for `float`, `case 0/1` for `double`,
`default` → `applyExternal`). -/

/-- `GateImplementationsAVX512::applySingleQubitOp`. -/
noncomputable def avx512ApplySingleQubitOp (p : Precision) (n : ℕ)
    (m : Matrix (Fin 2) (Fin 2) ℂ) (w : ℕ) (inverse : Bool) (s : ℕ → ℂ) : ℕ → ℂ :=
  if n < internalWires p then lmApplySingleQubitOp n m w inverse s
  else
    match p, revWire n w with
    | .float, 0 => singleQubitOpKernel m 0 inverse s
    | .float, 1 => singleQubitOpKernel m 1 inverse s
    | .float, 2 => singleQubitOpKernel m 2 inverse s
    | .float, r => singleQubitOpKernel m r inverse s
    | .double, 0 => singleQubitOpKernel m 0 inverse s
    | .double, 1 => singleQubitOpKernel m 1 inverse s
    | .double, r => singleQubitOpKernel m r inverse s

/-- `GateImplementationsAVX512::applyPauliX`. -/
def avx512ApplyPauliX (p : Precision) (n w : ℕ) (inverse : Bool) (s : ℕ → ℂ) : ℕ → ℂ :=
  if n < internalWires p then lmApplyPauliX n w inverse s
  else
    match p, revWire n w with
    | .float, 0 => pauliXKernel 0 s
    | .float, 1 => pauliXKernel 1 s
    | .float, 2 => pauliXKernel 2 s
    | .float, r => pauliXKernel r s
    | .double, 0 => pauliXKernel 0 s
    | .double, 1 => pauliXKernel 1 s
    | .double, r => pauliXKernel r s

/-- `GateImplementationsAVX512::applyPauliY`. -/
def avx512ApplyPauliY (p : Precision) (n w : ℕ) (inverse : Bool) (s : ℕ → ℂ) : ℕ → ℂ :=
  if n < internalWires p then lmApplyPauliY n w inverse s
  else
    match p, revWire n w with
    | .float, 0 => pauliYKernel 0 s
    | .float, 1 => pauliYKernel 1 s
    | .float, 2 => pauliYKernel 2 s
    | .float, r => pauliYKernel r s
    | .double, 0 => pauliYKernel 0 s
    | .double, 1 => pauliYKernel 1 s
    | .double, r => pauliYKernel r s

/-- `GateImplementationsAVX512::applyPauliZ` (defined by the class even
though `GateOperation::PauliZ` is absent from `implemented_gates`). -/
def avx512ApplyPauliZ (p : Precision) (n w : ℕ) (inverse : Bool) (s : ℕ → ℂ) : ℕ → ℂ :=
  if n < internalWires p then lmApplyPauliZ n w inverse s
  else
    match p, revWire n w with
    | .float, 0 => pauliZKernel 0 s
    | .float, 1 => pauliZKernel 1 s
    | .float, 2 => pauliZKernel 2 s
    | .float, r => pauliZKernel r s
    | .double, 0 => pauliZKernel 0 s
    | .double, 1 => pauliZKernel 1 s
    | .double, r => pauliZKernel r s

/-- `GateImplementationsAVX512::applyS`; the crossover guard is written with
the explicit constants `3` (`float`) and `2` (`double`) in the source. -/
def avx512ApplyS (p : Precision) (n w : ℕ) (inverse : Bool) (s : ℕ → ℂ) : ℕ → ℂ :=
  match p with
  | .float =>
    if n < 3 then lmApplyS n w inverse s
    else
      match revWire n w with
      | 0 => sKernel 0 inverse s
      | 1 => sKernel 1 inverse s
      | 2 => sKernel 2 inverse s
      | r => sKernel r inverse s
  | .double =>
    if n < 2 then lmApplyS n w inverse s
    else
      match revWire n w with
      | 0 => sKernel 0 inverse s
      | 1 => sKernel 1 inverse s
      | r => sKernel r inverse s

/-- `GateImplementationsAVX512::applyHadamard`. -/
noncomputable def avx512ApplyHadamard (p : Precision) (n w : ℕ) (inverse : Bool)
    (s : ℕ → ℂ) : ℕ → ℂ :=
  if n < internalWires p then lmApplyHadamard n w inverse s
  else
    match p, revWire n w with
    | .float, 0 => hadamardKernel 0 s
    | .float, 1 => hadamardKernel 1 s
    | .float, 2 => hadamardKernel 2 s
    | .float, r => hadamardKernel r s
    | .double, 0 => hadamardKernel 0 s
    | .double, 1 => hadamardKernel 1 s
    | .double, r => hadamardKernel r s

/-- `GateImplementationsAVX512::applyRX`. -/
noncomputable def avx512ApplyRX (p : Precision) (n w : ℕ) (inverse : Bool)
    (angle : ℝ) (s : ℕ → ℂ) : ℕ → ℂ :=
  if n < internalWires p then lmApplyRX n w inverse angle s
  else
    match p, revWire n w with
    | .float, 0 => rxKernel 0 inverse angle s
    | .float, 1 => rxKernel 1 inverse angle s
    | .float, 2 => rxKernel 2 inverse angle s
    | .float, r => rxKernel r inverse angle s
    | .double, 0 => rxKernel 0 inverse angle s
    | .double, 1 => rxKernel 1 inverse angle s
    | .double, r => rxKernel r inverse angle s

/-- `GateImplementationsAVX512::applyRZ`. -/
noncomputable def avx512ApplyRZ (p : Precision) (n w : ℕ) (inverse : Bool)
    (angle : ℝ) (s : ℕ → ℂ) : ℕ → ℂ :=
  if n < internalWires p then lmApplyRZ n w inverse angle s
  else
    match p, revWire n w with
    | .float, 0 => rzKernel 0 inverse angle s
    | .float, 1 => rzKernel 1 inverse angle s
    | .float, 2 => rzKernel 2 inverse angle s
    | .float, r => rzKernel r inverse angle s
    | .double, 0 => rzKernel 0 inverse angle s
    | .double, 1 => rzKernel 1 inverse angle s
    | .double, r => rzKernel r inverse angle s

/-- `GateImplementationsAVX512::applyRot`: builds
`getRot(-omega,-theta,-phi)` when `inverse` else `getRot(phi,theta,omega)`
and forwards to `applySingleQubitOp` with the default `inverse = false`. -/
noncomputable def avx512ApplyRot (p : Precision) (n w : ℕ) (inverse : Bool)
    (phi theta omega : ℝ) (s : ℕ → ℂ) : ℕ → ℂ :=
  avx512ApplySingleQubitOp p n
    (if inverse then getRot (-omega) (-theta) (-phi) else getRot phi theta omega)
    w false s

/-- `GateImplementationsAVX512::applyCZ` (`wires = [w0, w1]`;
`rev_wire0 = n - wires[1] - 1`, `rev_wire1 = n - wires[0] - 1`). -/
def avx512ApplyCZ (p : Precision) (n w0 w1 : ℕ) (inverse : Bool) (s : ℕ → ℂ) : ℕ → ℂ :=
  if n < internalWires p then lmApplyCZ n w0 w1 inverse s
  else
    match p with
    | .float =>
      if revWire n w1 < 3 ∧ revWire n w0 < 3 then
        czKernel (revWire n w1) (revWire n w0) s
      else if min (revWire n w1) (revWire n w0) < 3 then
        czKernel (revWire n w1) (revWire n w0) s
      else
        czKernel (revWire n w1) (revWire n w0) s
    | .double =>
      if revWire n w1 < 2 ∧ revWire n w0 < 2 then
        czKernel (revWire n w1) (revWire n w0) s
      else if min (revWire n w1) (revWire n w0) < 2 then
        czKernel (revWire n w1) (revWire n w0) s
      else
        czKernel (revWire n w1) (revWire n w0) s

/-- `GateImplementationsAVX512::applyIsingZZ`. -/
noncomputable def avx512ApplyIsingZZ (p : Precision) (n w0 w1 : ℕ) (inverse : Bool)
    (angle : ℝ) (s : ℕ → ℂ) : ℕ → ℂ :=
  if n < internalWires p then lmApplyIsingZZ n w0 w1 inverse angle s
  else
    match p with
    | .float =>
      if revWire n w1 < 3 ∧ revWire n w0 < 3 then
        isingZZKernel (revWire n w1) (revWire n w0) inverse angle s
      else if min (revWire n w1) (revWire n w0) < 3 then
        isingZZKernel (revWire n w1) (revWire n w0) inverse angle s
      else
        isingZZKernel (revWire n w1) (revWire n w0) inverse angle s
    | .double =>
      if revWire n w1 < 2 ∧ revWire n w0 < 2 then
        isingZZKernel (revWire n w1) (revWire n w0) inverse angle s
      else if min (revWire n w1) (revWire n w0) < 2 then
        isingZZKernel (revWire n w1) (revWire n w0) inverse angle s
      else
        isingZZKernel (revWire n w1) (revWire n w0) inverse angle s

/-- `GateImplementationsAVX512::applySWAP`; guard constants `3`/`2` are
explicit in the source, internal pairs are selected by `min ^ max`, and
`PL_UNREACHABLE` branches are modelled as leaving the buffer unchanged. -/
def avx512ApplySWAP (p : Precision) (n w0 w1 : ℕ) (inverse : Bool) (s : ℕ → ℂ) : ℕ → ℂ :=
  match p with
  | .float =>
    if n < 3 then lmApplySWAP n w0 w1 inverse s
    else
      if revWire n w1 < 3 ∧ revWire n w0 < 3 then
        match min (revWire n w1) (revWire n w0) ^^^ max (revWire n w1) (revWire n w0) with
        | 1 => swapKernel 0 1 s
        | 2 => swapKernel 0 2 s
        | 3 => swapKernel 1 2 s
        | _ => s
      else if min (revWire n w1) (revWire n w0) < 3 then
        match min (revWire n w1) (revWire n w0) with
        | 0 => swapKernel 0 (max (revWire n w1) (revWire n w0)) s
        | 1 => swapKernel 1 (max (revWire n w1) (revWire n w0)) s
        | 2 => swapKernel 2 (max (revWire n w1) (revWire n w0)) s
        | _ => s
      else
        swapKernel (revWire n w1) (revWire n w0) s
  | .double =>
    if n < 2 then lmApplySWAP n w0 w1 inverse s
    else
      if revWire n w1 < 2 ∧ revWire n w0 < 2 then
        swapKernel 0 1 s
      else if min (revWire n w1) (revWire n w0) < 2 then
        if min (revWire n w1) (revWire n w0) = 0 then
          swapKernel 0 (max (revWire n w1) (revWire n w0)) s
        else
          swapKernel 1 (max (revWire n w1) (revWire n w0)) s
      else
        swapKernel (revWire n w1) (revWire n w0) s

/-! ## Dispatch routes -/

/-- Which code path a single-wire AVX512 entry point selects. -/
inductive KernelRoute where
  | lmDelegate : KernelRoute
  | internal : ℕ → KernelRoute
  | external : ℕ → KernelRoute
deriving DecidableEq

/-- Which code path a two-wire AVX512 entry point selects. -/
inductive TwoWireRoute where
  | lmDelegate : TwoWireRoute
  | internalInternal : TwoWireRoute
  | internalExternal : TwoWireRoute
  | externalExternal : TwoWireRoute
deriving DecidableEq

/-- The code path selected by `GateImplementationsAVX512::applySingleQubitOp`
(the control flow shared by all single-wire entry points). -/
def avx512SingleQubitOpRoute (p : Precision) (n w : ℕ) : KernelRoute :=
  if n < internalWires p then .lmDelegate
  else
    match p, revWire n w with
    | .float, 0 => .internal 0
    | .float, 1 => .internal 1
    | .float, 2 => .internal 2
    | .float, r => .external r
    | .double, 0 => .internal 0
    | .double, 1 => .internal 1
    | .double, r => .external r

/-- The code path selected by `GateImplementationsAVX512::applyCZ`. -/
def avx512CZRoute (p : Precision) (n w0 w1 : ℕ) : TwoWireRoute :=
  if n < internalWires p then .lmDelegate
  else
    match p with
    | .float =>
      if revWire n w1 < 3 ∧ revWire n w0 < 3 then .internalInternal
      else if min (revWire n w1) (revWire n w0) < 3 then .internalExternal
      else .externalExternal
    | .double =>
      if revWire n w1 < 2 ∧ revWire n w0 < 2 then .internalInternal
      else if min (revWire n w1) (revWire n w0) < 2 then .internalExternal
      else .externalExternal

/-! ## Scalar and entry-evaluation helpers -/

lemma opX_00 : opX 0 0 = 0 := rfl
lemma opX_01 : opX 0 1 = 1 := rfl
lemma opX_10 : opX 1 0 = 1 := rfl
lemma opX_11 : opX 1 1 = 0 := rfl
lemma opY_00 : opY 0 0 = 0 := rfl
lemma opY_01 : opY 0 1 = -Complex.I := rfl
lemma opY_10 : opY 1 0 = Complex.I := rfl
lemma opY_11 : opY 1 1 = 0 := rfl
lemma opH_00 : opH 0 0 = 1 / SQRT_2 := rfl
lemma opH_01 : opH 0 1 = 1 / SQRT_2 := rfl
lemma opH_10 : opH 1 0 = 1 / SQRT_2 := rfl
lemma opH_11 : opH 1 1 = -(1 / SQRT_2) := rfl
lemma opS_00 : opS 0 0 = 1 := rfl
lemma opS_01 : opS 0 1 = 0 := rfl
lemma opS_10 : opS 1 0 = 0 := rfl
lemma opS_11 : opS 1 1 = Complex.I := rfl
lemma opRX_00 (p : ℝ) : opRX p 0 0 = ((Real.cos (p / 2) : ℝ) : ℂ) := rfl
lemma opRX_01 (p : ℝ) : opRX p 0 1 = Complex.I * ((Real.sin (-p / 2) : ℝ) : ℂ) := rfl
lemma opRX_10 (p : ℝ) : opRX p 1 0 = Complex.I * ((Real.sin (-p / 2) : ℝ) : ℂ) := rfl
lemma opRX_11 (p : ℝ) : opRX p 1 1 = ((Real.cos (p / 2) : ℝ) : ℂ) := rfl
lemma opRZ_00 (p : ℝ) : opRZ p 0 0 = Complex.exp (Complex.I * ((-p / 2 : ℝ) : ℂ)) := rfl
lemma opRZ_01 (p : ℝ) : opRZ p 0 1 = 0 := rfl
lemma opRZ_10 (p : ℝ) : opRZ p 1 0 = 0 := rfl
lemma opRZ_11 (p : ℝ) : opRZ p 1 1 = Complex.exp (Complex.I * ((p / 2 : ℝ) : ℂ)) := rfl
lemma opRot_00 (phi theta omega : ℝ) : opRot phi theta omega 0 0 =
    Complex.exp (Complex.I * (((-phi - omega) / 2 : ℝ) : ℂ)) *
      ((Real.cos (theta / 2) : ℝ) : ℂ) := rfl
lemma opRot_01 (phi theta omega : ℝ) : opRot phi theta omega 0 1 =
    -(Complex.exp (Complex.I * (((phi - omega) / 2 : ℝ) : ℂ)) *
      ((Real.sin (theta / 2) : ℝ) : ℂ)) := rfl
lemma opRot_10 (phi theta omega : ℝ) : opRot phi theta omega 1 0 =
    Complex.exp (Complex.I * (((-phi + omega) / 2 : ℝ) : ℂ)) *
      ((Real.sin (theta / 2) : ℝ) : ℂ) := rfl
lemma opRot_11 (phi theta omega : ℝ) : opRot phi theta omega 1 1 =
    Complex.exp (Complex.I * (((phi + omega) / 2 : ℝ) : ℂ)) *
      ((Real.cos (theta / 2) : ℝ) : ℂ) := rfl

lemma conj_SQRT_2 : (starRingEnd ℂ) SQRT_2 = SQRT_2 := Complex.conj_ofReal _

lemma SQRT_2_mul_self : SQRT_2 * SQRT_2 = 2 := by
  rw [SQRT_2, ← Complex.ofReal_mul, Real.mul_self_sqrt (by norm_num : (0:ℝ) ≤ 2)]
  norm_num

lemma sin_sq_add_cos_sq_c (x : ℝ) :
    ((Real.sin x : ℝ) : ℂ) ^ 2 + ((Real.cos x : ℝ) : ℂ) ^ 2 = 1 := by
  norm_cast
  exact Real.sin_sq_add_cos_sq x

lemma expI_pair (a b : ℝ) (h : a + b = 0) :
    Complex.exp (Complex.I * (a : ℂ)) * Complex.exp (Complex.I * (b : ℂ)) = 1 := by
  rw [← Complex.exp_add, ← mul_add, ← Complex.ofReal_add, h]
  simp

lemma expI_pair_eq (a b c d : ℝ) (h : a + b = c + d) :
    Complex.exp (Complex.I * (a : ℂ)) * Complex.exp (Complex.I * (b : ℂ)) =
      Complex.exp (Complex.I * (c : ℂ)) * Complex.exp (Complex.I * (d : ℂ)) := by
  rw [← Complex.exp_add, ← Complex.exp_add, ← mul_add, ← mul_add,
    ← Complex.ofReal_add, ← Complex.ofReal_add, h]

/-! ## Gate-level equivalences: AVX kernel semantics vs reference matrices -/

lemma pauliXKernel_matrix (b : ℕ) (inv : Bool) (s : ℕ → ℂ) :
    pauliXKernel b s = applyGate1q (if inv then opX.conjTranspose else opX) b s := by
  cases inv <;> funext i <;> cases h : i.testBit b <;>
    simp only [pauliXKernel, applyGate1q, h, Matrix.conjTranspose_apply, Complex.star_def,
      Bool.false_eq_true, if_true, if_false, opX_00, opX_01, opX_10, opX_11,
      map_zero, map_one] <;>
    ring

lemma pauliYKernel_matrix (b : ℕ) (inv : Bool) (s : ℕ → ℂ) :
    pauliYKernel b s = applyGate1q (if inv then opY.conjTranspose else opY) b s := by
  cases inv <;> funext i <;> cases h : i.testBit b <;>
    simp only [pauliYKernel, applyGate1q, h, Matrix.conjTranspose_apply, Complex.star_def,
      Bool.false_eq_true, if_true, if_false, opY_00, opY_01, opY_10, opY_11,
      map_zero, map_neg, Complex.conj_I, neg_neg] <;>
    ring

lemma hadamardKernel_matrix (b : ℕ) (inv : Bool) (s : ℕ → ℂ) :
    hadamardKernel b s = applyGate1q (if inv then opH.conjTranspose else opH) b s := by
  cases inv <;> funext i <;> cases h : i.testBit b <;>
    simp only [hadamardKernel, applyGate1q, h, Matrix.conjTranspose_apply, Complex.star_def,
      Bool.false_eq_true, if_true, if_false, opH_00, opH_01, opH_10, opH_11,
      map_neg, map_div₀, map_one, conj_SQRT_2] <;>
    ring

lemma sKernel_matrix (b : ℕ) (inv : Bool) (s : ℕ → ℂ) :
    sKernel b inv s = applyGate1q (if inv then opS.conjTranspose else opS) b s := by
  cases inv <;> funext i <;> cases h : i.testBit b <;>
    simp only [sKernel, applyGate1q, h, Matrix.conjTranspose_apply, Complex.star_def,
      Bool.false_eq_true, if_true, if_false, opS_00, opS_01, opS_10, opS_11,
      map_zero, map_one, Complex.conj_I] <;>
    ring

lemma rxKernel_matrix (b : ℕ) (inv : Bool) (p : ℝ) (s : ℕ → ℂ) :
    rxKernel b inv p s = applyGate1q (if inv then (opRX p).conjTranspose else opRX p) b s := by
  cases inv <;> funext i <;> cases h : i.testBit b <;>
    simp only [rxKernel, applyGate1q, h, Matrix.conjTranspose_apply, Complex.star_def,
      Bool.false_eq_true, if_true, if_false, opRX_00, opRX_01, opRX_10, opRX_11, map_mul,
      map_neg, Complex.conj_I, Complex.conj_ofReal, neg_div, Real.sin_neg,
      Complex.ofReal_neg] <;>
    ring

lemma rzKernel_matrix (b : ℕ) (inv : Bool) (p : ℝ) (s : ℕ → ℂ) :
    rzKernel b inv p s = applyGate1q (if inv then (opRZ p).conjTranspose else opRZ p) b s := by
  cases inv <;> funext i <;> cases h : i.testBit b <;>
    simp only [rzKernel, applyGate1q, h, Matrix.conjTranspose_apply, Complex.star_def,
      Bool.false_eq_true, if_true, if_false, opRZ_00, opRZ_01, opRZ_10, opRZ_11,
      ← Complex.exp_conj, map_neg, map_mul, map_zero, Complex.conj_I, Complex.conj_ofReal,
      neg_div, Complex.ofReal_neg, mul_neg, neg_mul, neg_neg] <;>
    ring

lemma getRot_neg_eq_ct (phi theta omega : ℝ) :
    getRot (-omega) (-theta) (-phi) = (opRot phi theta omega).conjTranspose := by
  apply Matrix.ext
  intro i j
  fin_cases i <;> fin_cases j <;>
    simp only [Fin.zero_eta, Fin.mk_one, getRot, Matrix.conjTranspose_apply, Complex.star_def,
      opRot_00, opRot_01, opRot_10, opRot_11, map_mul, map_neg,
      ← Complex.exp_conj, Complex.conj_I, Complex.conj_ofReal,
      Real.cos_neg, Real.sin_neg, neg_div, Complex.ofReal_neg, mul_neg, neg_mul, neg_neg] <;>
    push_cast <;> ring_nf

/-! ## Round-trip identities at the kernel level -/

lemma pauliXKernel_involutive (b : ℕ) (s : ℕ → ℂ) :
    pauliXKernel b (pauliXKernel b s) = s := by
  funext i
  simp [pauliXKernel, flipBit_flipBit]

lemma pauliYKernel_involutive (b : ℕ) (s : ℕ → ℂ) :
    pauliYKernel b (pauliYKernel b s) = s := by
  funext i
  cases h : i.testBit b <;>
    simp only [pauliYKernel, h, testBit_flipBit_self, flipBit_flipBit, Bool.not_true,
      Bool.not_false, Bool.false_eq_true, if_true, if_false] <;>
    linear_combination -(s i) * Complex.I_sq

lemma hadamardKernel_involutive (b : ℕ) (s : ℕ → ℂ) :
    hadamardKernel b (hadamardKernel b s) = s := by
  funext i
  cases h : i.testBit b <;>
    simp only [hadamardKernel, h, flipBit_flipBit, testBit_flipBit_self, Bool.not_true,
      Bool.not_false, Bool.false_eq_true, if_true, if_false, div_sub_div_same,
      div_add_div_same, div_div] <;>
    rw [SQRT_2_mul_self, div_eq_iff (two_ne_zero)] <;>
    ring

lemma sKernel_roundtrip (b : ℕ) (s : ℕ → ℂ) :
    sKernel b true (sKernel b false s) = s := by
  funext i
  cases h : i.testBit b <;>
    simp only [sKernel, h, Bool.false_eq_true, if_true, if_false]
  linear_combination -(s i) * Complex.I_sq

lemma rxKernel_roundtrip (b : ℕ) (p : ℝ) (s : ℕ → ℂ) :
    rxKernel b true p (rxKernel b false p s) = s := by
  funext i
  simp only [rxKernel, flipBit_flipBit, Bool.false_eq_true, if_true, if_false,
    Complex.ofReal_neg]
  linear_combination (s i) * sin_sq_add_cos_sq_c (p / 2) -
    (s i) * ((Real.sin (p / 2) : ℝ) : ℂ) ^ 2 * Complex.I_sq

lemma rzKernel_roundtrip (b : ℕ) (p : ℝ) (s : ℕ → ℂ) :
    rzKernel b true p (rzKernel b false p s) = s := by
  funext i
  cases h : i.testBit b <;>
    simp only [rzKernel, h, Bool.false_eq_true, if_true, if_false] <;>
    rw [← mul_assoc, ← Complex.exp_add] <;>
    simp only [neg_div, Complex.ofReal_neg, mul_neg, neg_mul, neg_neg, neg_add_cancel,
      add_neg_cancel, Complex.exp_zero, one_mul]

lemma getRot_inverse_product (phi theta omega : ℝ) :
    getRot (-omega) (-theta) (-phi) * getRot phi theta omega = 1 := by
  apply Matrix.ext
  intro i j
  fin_cases i <;> fin_cases j <;>
    simp only [Fin.zero_eta, Fin.mk_one, getRot, Matrix.mul_apply, Fin.sum_univ_two,
      Matrix.one_apply, opRot_00, opRot_01, opRot_10, opRot_11,
      Real.cos_neg, Real.sin_neg, neg_div, Complex.ofReal_neg, mul_neg, neg_mul, neg_neg,
      Fin.one_eq_zero_iff, Fin.zero_eq_one_iff, Nat.reduceEqDiff, if_true, if_false]
  · linear_combination
      ((Real.cos (theta / 2) : ℝ) : ℂ) ^ 2 *
        expI_pair ((omega - -phi) / 2) ((-phi - omega) / 2) (by ring) +
      ((Real.sin (theta / 2) : ℝ) : ℂ) ^ 2 *
        expI_pair ((-omega - -phi) / 2) ((-phi + omega) / 2) (by ring) +
      sin_sq_add_cos_sq_c (theta / 2)
  · linear_combination
      (((Real.cos (theta / 2) : ℝ) : ℂ) * ((Real.sin (theta / 2) : ℝ) : ℂ)) *
        expI_pair_eq ((-omega - -phi) / 2) ((phi + omega) / 2)
          ((omega - -phi) / 2) ((phi - omega) / 2) (by ring)
  · linear_combination
      (-(((Real.cos (theta / 2) : ℝ) : ℂ) * ((Real.sin (theta / 2) : ℝ) : ℂ))) *
        expI_pair_eq ((omega + -phi) / 2) ((-phi - omega) / 2)
          ((-omega + -phi) / 2) ((-phi + omega) / 2) (by ring)
  · linear_combination
      ((Real.sin (theta / 2) : ℝ) : ℂ) ^ 2 *
        expI_pair ((omega + -phi) / 2) ((phi - omega) / 2) (by ring) +
      ((Real.cos (theta / 2) : ℝ) : ℂ) ^ 2 *
        expI_pair ((-omega + -phi) / 2) ((phi + omega) / 2) (by ring) +
      sin_sq_add_cos_sq_c (theta / 2)

lemma bitSwap_bitSwap (b0 b1 i : ℕ) : bitSwap b0 b1 (bitSwap b0 b1 i) = i := by
  unfold bitSwap
  by_cases h : i.testBit b0 = i.testBit b1
  · simp [h]
  · rw [if_neg h]
    by_cases hb : b0 = b1
    · subst hb
      simp at h
    · have h0 : ((2:ℕ) ^ b0).testBit b0 = true := by simp
      have h1 : ((2:ℕ) ^ b1).testBit b1 = true := by simp
      have h01 : ((2:ℕ) ^ b0).testBit b1 = false := by
        simp [Nat.testBit_two_pow, hb]
      have h10 : ((2:ℕ) ^ b1).testBit b0 = false := by
        simp only [Nat.testBit_two_pow, decide_eq_false_iff_not]
        omega
      rw [if_neg]
      · rw [Nat.xor_assoc, Nat.xor_self, Nat.xor_zero]
      · simp only [Nat.testBit_xor, h0, h1, h01, h10]
        cases hc : i.testBit b0 <;> simp_all

lemma swapKernel_involutive (b0 b1 : ℕ) (s : ℕ → ℂ) :
    swapKernel b0 b1 (swapKernel b0 b1 s) = s := by
  funext i
  simp [swapKernel, bitSwap_bitSwap]

lemma swapKernel_comm (b0 b1 : ℕ) (s : ℕ → ℂ) :
    swapKernel b0 b1 s = swapKernel b1 b0 s := by
  funext i
  unfold swapKernel bitSwap
  by_cases h : i.testBit b0 = i.testBit b1
  · rw [if_pos h, if_pos h.symm]
  · rw [if_neg h, if_neg (fun hh => h hh.symm), Nat.xor_comm (2 ^ b0)]

lemma czKernel_involutive (b0 b1 : ℕ) (s : ℕ → ℂ) :
    czKernel b0 b1 (czKernel b0 b1 s) = s := by
  funext i
  cases h : i.testBit b0 && i.testBit b1 <;> simp [czKernel, h]

lemma isingZZKernel_roundtrip (b0 b1 : ℕ) (p : ℝ) (s : ℕ → ℂ) :
    isingZZKernel b0 b1 true p (isingZZKernel b0 b1 false p s) = s := by
  funext i
  by_cases h : i.testBit b0 = i.testBit b1 <;>
    simp only [isingZZKernel, Bool.false_eq_true, if_true, if_false, if_pos, if_neg, h,
      not_true, not_false_iff] <;>
    rw [← mul_assoc, ← Complex.exp_add] <;>
    simp only [neg_div, Complex.ofReal_neg, mul_neg, neg_mul, neg_neg, neg_add_cancel,
      add_neg_cancel, Complex.exp_zero, one_mul]

/-! ## Entry-point reductions: every dispatch branch applies the same kernel -/

lemma avx512ApplySingleQubitOp_eq (p : Precision) (n : ℕ) (m : Matrix (Fin 2) (Fin 2) ℂ)
    (w : ℕ) (inv : Bool) (s : ℕ → ℂ) :
    avx512ApplySingleQubitOp p n m w inv s = singleQubitOpKernel m (revWire n w) inv s := by
  unfold avx512ApplySingleQubitOp
  split
  · rfl
  · split <;> simp_all

lemma avx512ApplyPauliX_eq (p : Precision) (n w : ℕ) (inv : Bool) (s : ℕ → ℂ) :
    avx512ApplyPauliX p n w inv s = pauliXKernel (revWire n w) s := by
  unfold avx512ApplyPauliX
  split
  · rfl
  · split <;> simp_all

lemma avx512ApplyPauliY_eq (p : Precision) (n w : ℕ) (inv : Bool) (s : ℕ → ℂ) :
    avx512ApplyPauliY p n w inv s = pauliYKernel (revWire n w) s := by
  unfold avx512ApplyPauliY
  split
  · rfl
  · split <;> simp_all

lemma avx512ApplyHadamard_eq (p : Precision) (n w : ℕ) (inv : Bool) (s : ℕ → ℂ) :
    avx512ApplyHadamard p n w inv s = hadamardKernel (revWire n w) s := by
  unfold avx512ApplyHadamard
  split
  · rfl
  · split <;> simp_all

lemma avx512ApplyS_eq (p : Precision) (n w : ℕ) (inv : Bool) (s : ℕ → ℂ) :
    avx512ApplyS p n w inv s = sKernel (revWire n w) inv s := by
  cases p <;> simp only [avx512ApplyS] <;> split
  · rfl
  · split <;> simp_all
  · rfl
  · split <;> simp_all

lemma avx512ApplyRX_eq (p : Precision) (n w : ℕ) (inv : Bool) (angle : ℝ) (s : ℕ → ℂ) :
    avx512ApplyRX p n w inv angle s = rxKernel (revWire n w) inv angle s := by
  unfold avx512ApplyRX
  split
  · rfl
  · split <;> simp_all

lemma avx512ApplyRZ_eq (p : Precision) (n w : ℕ) (inv : Bool) (angle : ℝ) (s : ℕ → ℂ) :
    avx512ApplyRZ p n w inv angle s = rzKernel (revWire n w) inv angle s := by
  unfold avx512ApplyRZ
  split
  · rfl
  · split <;> simp_all

lemma avx512ApplyRot_eq (p : Precision) (n w : ℕ) (inv : Bool) (phi theta omega : ℝ)
    (s : ℕ → ℂ) :
    avx512ApplyRot p n w inv phi theta omega s =
      applyGate1q (if inv then getRot (-omega) (-theta) (-phi) else getRot phi theta omega)
        (revWire n w) s := by
  unfold avx512ApplyRot
  rw [avx512ApplySingleQubitOp_eq]
  simp only [singleQubitOpKernel, Bool.false_eq_true, if_false]

lemma avx512ApplyCZ_eq (p : Precision) (n w0 w1 : ℕ) (inv : Bool) (s : ℕ → ℂ) :
    avx512ApplyCZ p n w0 w1 inv s = czKernel (revWire n w1) (revWire n w0) s := by
  cases p <;> simp only [avx512ApplyCZ] <;> (repeat' split) <;> rfl

lemma avx512ApplyIsingZZ_eq (p : Precision) (n w0 w1 : ℕ) (inv : Bool) (angle : ℝ)
    (s : ℕ → ℂ) :
    avx512ApplyIsingZZ p n w0 w1 inv angle s =
      isingZZKernel (revWire n w1) (revWire n w0) inv angle s := by
  cases p <;> simp only [avx512ApplyIsingZZ] <;> (repeat' split) <;> rfl

lemma swapKernel_min_max (r0 r1 : ℕ) (s : ℕ → ℂ) :
    swapKernel (min r0 r1) (max r0 r1) s = swapKernel r0 r1 s := by
  rcases le_total r0 r1 with h | h
  · rw [min_eq_left h, max_eq_right h]
  · rw [min_eq_right h, max_eq_left h, swapKernel_comm]

lemma avx512ApplySWAP_eq (p : Precision) (n w0 w1 : ℕ) (inv : Bool) (s : ℕ → ℂ)
    (h0 : w0 < n) (h1 : w1 < n) (hne : w0 ≠ w1) :
    avx512ApplySWAP p n w0 w1 inv s = swapKernel (revWire n w1) (revWire n w0) s := by
  have hrev : revWire n w1 ≠ revWire n w0 := by
    unfold revWire
    omega
  cases p <;> simp only [avx512ApplySWAP]
  · split
    · rfl
    · split
      · rename_i hboth
        obtain ⟨ha, hb⟩ := hboth
        set r0 := revWire n w1 with hr0
        set r1 := revWire n w0 with hr1
        interval_cases r0 <;> interval_cases r1 <;>
          first
          | omega
          | rfl
          | (norm_num <;> rw [swapKernel_comm])
      · split
        · rename_i hmin
          rcases hm : min (revWire n w1) (revWire n w0) with _ | k
          · have hx := swapKernel_min_max (revWire n w1) (revWire n w0) s
            rw [hm] at hx
            exact hx
          · rcases k with _ | k
            · have hx := swapKernel_min_max (revWire n w1) (revWire n w0) s
              rw [hm] at hx
              exact hx
            · rcases k with _ | k
              · have hx := swapKernel_min_max (revWire n w1) (revWire n w0) s
                rw [hm] at hx
                exact hx
              · omega
        · rfl
  · split
    · rfl
    · split
      · rename_i hboth
        obtain ⟨ha, hb⟩ := hboth
        set r0 := revWire n w1 with hr0
        set r1 := revWire n w0 with hr1
        interval_cases r0 <;> interval_cases r1 <;>
          first
          | omega
          | rfl
          | (rw [swapKernel_comm])
      · split
        · rename_i hmin
          split
          · rename_i hz
            have hx := swapKernel_min_max (revWire n w1) (revWire n w0) s
            rw [hz] at hx
            exact hx
          · rename_i hz
            have hm : min (revWire n w1) (revWire n w0) = 1 := by omega
            have hx := swapKernel_min_max (revWire n w1) (revWire n w0) s
            rw [hm] at hx
            exact hx
        · rfl

/-! ## Route characterizations -/

lemma avx512SingleQubitOpRoute_char (p : Precision) (n w : ℕ)
    (hn : ¬n < internalWires p) :
    avx512SingleQubitOpRoute p n w =
      if revWire n w < internalWires p then KernelRoute.internal (revWire n w)
      else KernelRoute.external (revWire n w) := by
  unfold avx512SingleQubitOpRoute
  rw [if_neg hn]
  cases p <;> rcases hr : revWire n w with _ | _ | _ | k <;>
    simp_all [internalWires] <;>
    rw [if_neg (by omega)]

lemma avx512CZRoute_char (p : Precision) (n w0 w1 : ℕ) (hn : ¬n < internalWires p) :
    avx512CZRoute p n w0 w1 =
      if revWire n w1 < internalWires p ∧ revWire n w0 < internalWires p then
        TwoWireRoute.internalInternal
      else if min (revWire n w1) (revWire n w0) < internalWires p then
        TwoWireRoute.internalExternal
      else TwoWireRoute.externalExternal := by
  unfold avx512CZRoute
  rw [if_neg hn]
  cases p <;> rfl

/-! ## Adjoint-differentiation helpers (`AlgUtil.hpp`)

`StateVectorManaged`, `OpsData` and `ObsDatum` live outside the provided
sources, so the state type and the per-state application functions are
abstract parameters; the loop, exception-capture and rethrow structure is
translated from `AlgUtil.hpp` in its sequential (no `_OPENMP`) elaboration:
the `catch (...)` stores the current exception into the shared `ex` slot
(later failures overwrite earlier ones), the loop always runs to its end,
and `ex` is rethrown only after the loop. -/

/-- `OpsData<T>`: parallel arrays of names, wires, inverse flags and
parameters of the recorded operations. -/
structure OpsData where
  opsNames : List String
  opsWires : List (List ℕ)
  opsInverses : List Bool
  opsParams : List (List ℝ)

/-- `applyOperationAdj (AlgUtil.hpp:53-60)`: applies the indexed operation
with its name, wires and parameters unchanged and the recorded inverse flag
negated (`!operations.getOpsInverses()[op_idx]`).  The state type `σ` and
`StateVectorManaged::applyOperation` are abstract. -/
def applyOperationAdj {σ : Type} (applyOperation : σ → String → List ℕ → Bool → List ℝ → σ)
    (state : σ) (operations : OpsData) (opIdx : ℕ) : σ :=
  applyOperation state
    (operations.opsNames.getD opIdx (""))
    (operations.opsWires.getD opIdx [])
    (!(operations.opsInverses.getD opIdx false))
    (operations.opsParams.getD opIdx [])

/-- One iteration body outcome: `Except E σ` models "ran to completion with
a new state" vs "threw an exception `E`". -/
def parForIdxGo {α E : Type} (body : ℕ → Except E α) :
    List ℕ → List α → Option E → List α × Option E
  | [], st, ex => (st, ex)
  | i :: rest, st, ex =>
    match body i with
    | .ok y => parForIdxGo body rest (st.set i y) ex
    | .error e => parForIdxGo body rest st (some e)

/-- Index-driven parallel-for region (sequential elaboration): iterations
`0..n-1` each either store their result into slot `i` or overwrite the
shared exception slot; the exception is rethrown only after the loop. -/
def parForIdxRun {α E : Type} (body : ℕ → Except E α) (n : ℕ) (init : List α) :
    Except E (List α) :=
  match parForIdxGo body (List.range n) init none with
  | (_, some e) => .error e
  | (st, none) => .ok st

/-- `applyObservables (AlgUtil.hpp:112-152)`: iteration `h_i` overwrites
`states[h_i]` with the reference state's data (`updateData`) and applies
`observables[h_i]` to it; `applyObservable` (the per-state worker, which
may throw) is abstract over the state type. -/
def applyObservablesRun {σ Obs E : Type} [Inhabited Obs]
    (applyObservable : σ → Obs → Except E σ)
    (states : List σ) (referenceState : σ) (observables : List Obs) :
    Except E (List σ) :=
  parForIdxRun
    (fun hi => applyObservable referenceState (observables.getD hi default))
    observables.length states

/-- Element-driven parallel-for region used by `applyOperationsAdj`. -/
def parForElemGo {α E : Type} (body : α → Except E α) :
    List α → Option E → List α × Option E
  | [], ex => ([], ex)
  | x :: rest, ex =>
    match body x with
    | .ok y =>
      let r := parForElemGo body rest ex
      (y :: r.1, r.2)
    | .error e =>
      let r := parForElemGo body rest (some e)
      (x :: r.1, r.2)

/-- `applyOperationsAdj (AlgUtil.hpp:163-202)`: applies the adjoint of the
indexed operation to every state in the list, with the same
exception-capture structure as `applyObservables`. -/
def applyOperationsAdjRun {σ E : Type}
    (applyOperation : σ → String → List ℕ → Bool → List ℝ → Except E σ)
    (states : List σ) (operations : OpsData) (opIdx : ℕ) : Except E (List σ) :=
  match parForElemGo
      (fun st => applyOperation st
        (operations.opsNames.getD opIdx (""))
        (operations.opsWires.getD opIdx [])
        (!(operations.opsInverses.getD opIdx false))
        (operations.opsParams.getD opIdx []))
      states none with
  | (_, some e) => .error e
  | (st, none) => .ok st

/-- Projects the exception out of an iteration outcome. -/
def errOf {α E : Type} : Except E α → Option E
  | .ok _ => none
  | .error e => some e

/-- The exception slot after a run over an index list: the last failing
iteration's exception wins (each `catch` overwrites `ex`). -/
def lastErrorOver {E : Type} (f : ℕ → Option E) : List ℕ → Option E → Option E
  | [], ex => ex
  | i :: rest, ex =>
    match f i with
    | some e => lastErrorOver f rest (some e)
    | none => lastErrorOver f rest ex

lemma parForIdxGo_snd {α E : Type} (body : ℕ → Except E α) (l : List ℕ)
    (st : List α) (ex : Option E) :
    (parForIdxGo body l st ex).2 = lastErrorOver (fun i => errOf (body i)) l ex := by
  induction l generalizing st ex with
  | nil => rfl
  | cons i rest ih =>
    simp only [parForIdxGo, lastErrorOver]
    cases hb : body i <;> simp only [errOf, ih]

lemma lastErrorOver_append {E : Type} (f : ℕ → Option E) (l1 l2 : List ℕ) (ex : Option E) :
    lastErrorOver f (l1 ++ l2) ex = lastErrorOver f l2 (lastErrorOver f l1 ex) := by
  induction l1 generalizing ex with
  | nil => rfl
  | cons i rest ih =>
    simp only [List.cons_append, lastErrorOver]
    cases f i <;> exact ih _

lemma lastErrorOver_none {E : Type} (f : ℕ → Option E) (n : ℕ)
    (h : ∀ i, i < n → f i = none) :
    lastErrorOver f (List.range n) none = none := by
  induction n with
  | zero => rfl
  | succ m ih =>
    rw [List.range_succ, lastErrorOver_append]
    rw [ih (fun i hi => h i (Nat.lt_succ_of_lt hi))]
    simp only [lastErrorOver, h m (Nat.lt_succ_self m)]

lemma lastErrorOver_last_failure {E : Type} (f : ℕ → Option E) (n : ℕ)
    (j : ℕ) (hj : j < n) (hfj : (f j).isSome) :
    ∃ j0, j0 < n ∧ (f j0).isSome ∧ lastErrorOver f (List.range n) none = f j0 ∧
      ∀ k, j0 < k → k < n → f k = none := by
  induction n with
  | zero => omega
  | succ m ih =>
    rw [List.range_succ, lastErrorOver_append]
    cases hm : f m with
    | some e =>
      refine ⟨m, Nat.lt_succ_self m, by simp [hm], ?_, ?_⟩
      · simp [lastErrorOver, hm]
      · intro k hk1 hk2
        omega
    | none =>
      have hjm : j < m := by
        rcases Nat.lt_succ_iff_lt_or_eq.mp hj with h | h
        · exact h
        · subst h
          rw [hm] at hfj
          simp at hfj
      obtain ⟨j0, hj0n, hj0s, hj0eq, hj0after⟩ := ih hjm
      refine ⟨j0, Nat.lt_succ_of_lt hj0n, hj0s, ?_, ?_⟩
      · simp only [lastErrorOver, hm, hj0eq]
      · intro k hk1 hk2
        rcases Nat.lt_succ_iff_lt_or_eq.mp hk2 with h | h
        · exact hj0after k hk1 h
        · subst h
          exact hm

lemma parForIdxGo_fst {α E : Type} (body : ℕ → Except E α) (l : List ℕ)
    (st : List α) (ex : Option E) :
    (parForIdxGo body l st ex).1 =
      l.foldl (fun acc i => match body i with | .ok y => acc.set i y | .error _ => acc) st := by
  induction l generalizing st ex with
  | nil => rfl
  | cons i rest ih =>
    simp only [parForIdxGo, List.foldl_cons]
    cases hb : body i <;> simp only [ih]

lemma foldl_set_getElem? {α : Type} (v : ℕ → α) (l : List ℕ) (st : List α) (j : ℕ) :
    (l.foldl (fun acc i => acc.set i (v i)) st)[j]? =
      if j ∈ l ∧ j < st.length then some (v j) else st[j]? := by
  induction l generalizing st with
  | nil => simp
  | cons i rest ih =>
    simp only [List.foldl_cons, ih, List.length_set, List.mem_cons]
    by_cases hji : j = i <;> by_cases hj : j ∈ rest <;> by_cases hlen : j < st.length <;>
      simp only [hji, hj, hlen, true_or, or_true, false_or, or_false, true_and, and_true,
        and_false, false_and, if_true, if_false, List.getElem?_set] <;>
      first
      | rfl
      | (simp_all
         done)
      | (intro hh
         exact absurd hh.symm hji)
      | (rw [if_neg (by omega)]
         rw [List.getElem?_eq_none (by omega)])
      | (rw [if_neg (by omega), if_neg (by omega)]
         rw [List.getElem?_eq_none (by omega)])
      | (rw [List.getElem?_eq_none (by omega), List.getElem?_eq_none (by omega)])
      | (rw [if_neg (by omega)])

/-! ## Kernel dispatch map

`KernelMap.hpp` is not among the provided sources (only its tests,
`Test_KernelMap.cpp`, are), so the dispatch set and the operation kernel
map are modelled from the spec (§4.2) and checked against the tests'
expectations. -/

/-- Gate operations named across the provided sources
(`GateOperation.hpp` itself is not provided). -/
inductive GateOperation where
  | PauliX
  | PauliY
  | PauliZ
  | Hadamard
  | S
  | T
  | PhaseShift
  | RX
  | RY
  | RZ
  | Rot
  | CZ
  | CNOT
  | SWAP
  | IsingXX
  | IsingYY
  | IsingZZ
  | MultiRZ
deriving DecidableEq

/-- Kernel family identifiers (`KernelType.hpp` is not provided; the
members are those used across the provided sources and tests). -/
inductive KernelType where
  | PI
  | LM
  | AVX2
  | AVX512
  | None
deriving DecidableEq

/-- `GateImplementationsAVX512::implemented_gates`
(`GateImplementationsAVX512.hpp:55-68`): note the absence of `PauliZ` and
`T` even though the class defines `applyPauliZ`. -/
def avx512ImplementedGates : List GateOperation :=
  [GateOperation.PauliX, GateOperation.PauliY,
   GateOperation.Hadamard, GateOperation.S, GateOperation.SWAP,
   GateOperation.RX, GateOperation.RZ, GateOperation.Rot,
   GateOperation.CZ, GateOperation.IsingZZ]

/-- The gate operations for which `GateImplementationsAVX512` defines an
`apply*` member function (`applySingleQubitOp` is a matrix helper, not a
gate entry): `applyPauliX`, `applyPauliY`, `applyPauliZ`, `applyS`,
`applyHadamard`, `applyRX`, `applyRZ`, `applyRot`, `applyCZ`, `applySWAP`,
`applyIsingZZ`. -/
def avx512DefinedApplyFunctions : List GateOperation :=
  [GateOperation.PauliX, GateOperation.PauliY, GateOperation.PauliZ,
   GateOperation.S, GateOperation.Hadamard,
   GateOperation.RX, GateOperation.RZ, GateOperation.Rot,
   GateOperation.CZ, GateOperation.SWAP, GateOperation.IsingZZ]

/-- All members of the modelled gate enumeration. -/
def allGateOperations : List GateOperation :=
  [GateOperation.PauliX, GateOperation.PauliY, GateOperation.PauliZ,
   GateOperation.Hadamard, GateOperation.S, GateOperation.T,
   GateOperation.PhaseShift, GateOperation.RX, GateOperation.RY,
   GateOperation.RZ, GateOperation.Rot, GateOperation.CZ, GateOperation.CNOT,
   GateOperation.SWAP, GateOperation.IsingXX, GateOperation.IsingYY,
   GateOperation.IsingZZ, GateOperation.MultiRZ]

/-- Modelled from the spec: the set of operations each kernel family
claims to implement.  `AVX512`'s list is the source's
`implemented_gates`; `KernelType::None` claims nothing (the test
`Test unallowed kernel` requires assigning it to fail); `PI`/`LM` are the
generic families covering every operation. -/
def implementedGates : KernelType → List GateOperation
  | .PI => allGateOperations
  | .LM => allGateOperations
  | .AVX2 => avx512ImplementedGates
  | .AVX512 => avx512ImplementedGates
  | .None => []

/-- Threading model of the dispatch key. -/
inductive Threading where
  | SingleThread
  | MultiThread
deriving DecidableEq

/-- Memory alignment model of the dispatch key. -/
inductive CPUMemoryModel where
  | Unaligned
  | Aligned256
  | Aligned512
deriving DecidableEq

/-- `Util::IntegerInterval<size_t>`: the half-open interval `[lo, hi)`. -/
structure IntegerInterval where
  lo : ℕ
  hi : ℕ
deriving DecidableEq

/-- Membership of a qubit count in a dispatch interval. -/
def IntegerInterval.containsQ (iv : IntegerInterval) (n : ℕ) : Bool :=
  decide (iv.lo ≤ n) && decide (n < iv.hi)

/-- Two half-open intervals overlap when some point lies in both. -/
def IntegerInterval.overlaps (a b : IntegerInterval) : Bool :=
  decide (max a.lo b.lo < min a.hi b.hi)

/-- One entry of a priority dispatch set. -/
structure DispatchElement where
  priority : ℕ
  interval : IntegerInterval
  kernel : KernelType
deriving DecidableEq

/-- Modelled from the spec: `PriorityDispatchSet` (missing
`KernelMap.hpp`): a set of (priority, interval, kernel) entries for one
(operation, threading, memory-model) key. -/
abbrev PriorityDispatchSet : Type := List DispatchElement

/-- Modelled from the spec: `PriorityDispatchSet::conflict(priority,
interval)`: true when an existing entry has the same priority and an
overlapping interval. -/
def pdsConflict (s : PriorityDispatchSet) (priority : ℕ) (interval : IntegerInterval) : Bool :=
  s.any fun e => decide (e.priority = priority) && e.interval.overlaps interval

/-- The highest-priority entry whose interval contains `n`. -/
def pdsBestEntry (s : PriorityDispatchSet) (n : ℕ) : Option DispatchElement :=
  s.foldl
    (fun acc e =>
      if e.interval.containsQ n then
        match acc with
        | some b => if b.priority < e.priority then some e else some b
        | none => some e
      else acc)
    none

/-- Modelled from the spec: `PriorityDispatchSet::getKernel(num_qubits)`:
the kernel of the highest-priority entry containing `num_qubits`; fails
with "Cannot find a kernel" when no interval contains it. -/
def pdsGetKernel (s : PriorityDispatchSet) (n : ℕ) : Except String KernelType :=
  match pdsBestEntry s n with
  | some e => .ok e.kernel
  | none => .error ("Cannot find a kernel")

/-- Modelled from the spec: the `OperationKernelMap` state: one priority
dispatch set per (operation, threading, memory-model) key. -/
abbrev OperationKernelMap : Type :=
  GateOperation → Threading → CPUMemoryModel → PriorityDispatchSet

/-- The empty kernel map (no entries registered). -/
def emptyKernelMap : OperationKernelMap := fun _ _ _ => []

/-- Modelled from the spec: `OperationKernelMap::assignKernelForOp`:
fails when the kernel does not claim to implement the operation, fails on a
(same priority, overlapping interval) conflict for the same key, and
otherwise adds the entry to that key's set, leaving every other key
unchanged. -/
def assignKernelForOp (m : OperationKernelMap) (op : GateOperation)
    (threading : Threading) (memoryModel : CPUMemoryModel) (priority : ℕ)
    (interval : IntegerInterval) (kernel : KernelType) :
    Except String OperationKernelMap :=
  if ¬ op ∈ implementedGates kernel then
    .error ("The given kernel does not implement the operation")
  else if pdsConflict (m op threading memoryModel) priority interval then
    .error ("The given interval conflicts with an existing interval")
  else
    .ok fun op2 th2 mem2 =>
      if op2 = op ∧ th2 = threading ∧ mem2 = memoryModel then
        ⟨priority, interval, kernel⟩ :: m op threading memoryModel
      else m op2 th2 mem2

/-! ## Operation lookup maps (`operations.hpp`) -/

/-- `std::map` construction from an initializer list: entries are inserted
in order and an insertion whose key is already present is discarded (the
first binding for a key wins; `std::map::insert` never overwrites). -/
def mapInsert {V : Type} (m : List (String × V)) (kv : String × V) : List (String × V) :=
  if m.any (fun e => e.1 = kv.1) then m else m ++ [kv]

/-- Builds a `std::map` from an initializer list. -/
def buildMap {V : Type} (l : List (String × V)) : List (String × V) :=
  l.foldl mapInsert []

/-- Lookup in the built map. -/
def mapLookup {V : Type} (m : List (String × V)) (k : String) : Option V :=
  match m.find? (fun e => e.1 = k) with
  | some e => some e.2
  | none => none

/-- The initializer list of `TwoQubitOpsOneParam` (`operations.hpp:226-230`)
exactly as written: `{{"CRY", CRX}, {"CRY", CRY}, {"CRZ", CRZ}}` — the
first two entries share the key `"CRY"` and bind the distinct gate
functions `CRX` and `CRY`. -/
noncomputable def TwoQubitOpsOneParamInit : List (String × (ℝ → Matrix (Fin 4) (Fin 4) ℂ)) :=
  [("CRY", opCRX), ("CRY", opCRY), ("CRZ", opCRZ)]

/-- The constructed `TwoQubitOpsOneParam` map. -/
noncomputable def TwoQubitOpsOneParam : List (String × (ℝ → Matrix (Fin 4) (Fin 4) ℂ)) :=
  buildMap TwoQubitOpsOneParamInit

lemma opCRX_ne_opCRY : opCRX ≠ opCRY := by
  intro h
  have h23 := congrFun (congrFun (congrFun h Real.pi) 2) 3
  have hx : opCRX Real.pi 2 3 = Complex.I * ((Real.sin (-Real.pi / 2) : ℝ) : ℂ) := rfl
  have hy : opCRY Real.pi 2 3 = -((Real.sin (Real.pi / 2) : ℝ) : ℂ) := rfl
  rw [hx, hy] at h23
  rw [neg_div, Real.sin_neg, Real.sin_pi_div_two] at h23
  simp only [Complex.ofReal_neg, Complex.ofReal_one, mul_neg, mul_one] at h23
  have h1 : Complex.I = 1 := neg_inj.mp h23
  have h2 := congrArg Complex.re h1
  simp [Complex.I_re] at h2

/-! ## Further run lemmas -/

lemma errOf_eq_some {α E : Type} (x : Except E α) (e : E) :
    errOf x = some e ↔ x = .error e := by
  cases x <;> simp [errOf]

lemma errOf_eq_none {α E : Type} (x : Except E α) :
    errOf x = none ↔ ∃ y, x = .ok y := by
  cases x <;> simp [errOf]

lemma parForElemGo_preserve {α E : Type} (body : α → Except E α) (l : List α) (e : E) :
    (parForElemGo body l (some e)).2.isSome := by
  induction l generalizing e with
  | nil => rfl
  | cons x rest ih =>
    simp only [parForElemGo]
    cases hb : body x <;> simp only [ih]

lemma parForElemGo_fail {α E : Type} (body : α → Except E α) (l : List α) (ex : Option E)
    (x : α) (hx : x ∈ l) (e : E) (hb : body x = .error e) :
    (parForElemGo body l ex).2.isSome := by
  induction l generalizing ex with
  | nil => simp at hx
  | cons y rest ih =>
    simp only [parForElemGo]
    rcases List.mem_cons.mp hx with h | h
    · subst h
      rw [hb]
      exact parForElemGo_preserve body rest e
    · cases hby : body y
      · exact parForElemGo_preserve body rest _
      · exact ih ex h

lemma parForElemGo_total {α E : Type} (f : α → α) (l : List α) (ex : Option E) :
    parForElemGo (fun x => (Except.ok (f x) : Except E α)) l ex = (l.map f, ex) := by
  induction l generalizing ex with
  | nil => rfl
  | cons x rest ih =>
    simp only [parForElemGo, List.map_cons, ih]

lemma pdsBestEntry_none (s : PriorityDispatchSet) (n : ℕ)
    (hn : ∀ e ∈ s, e.interval.containsQ n = false) :
    pdsBestEntry s n = none := by
  unfold pdsBestEntry
  have key : ∀ (l : List DispatchElement), (∀ e ∈ l, e.interval.containsQ n = false) →
      ∀ acc : Option DispatchElement,
      l.foldl
        (fun acc e =>
          if e.interval.containsQ n then
            match acc with
            | some b => if b.priority < e.priority then some e else some b
            | none => some e
          else acc)
        acc = acc := by
    intro l
    induction l with
    | nil =>
      intro _ acc
      rfl
    | cons e rest ih =>
      intro hl acc
      simp only [List.foldl_cons]
      rw [if_neg (by simp [hl e (List.mem_cons_self e rest)])]
      exact ih (fun x hx => hl x (List.mem_cons_of_mem e hx)) acc
  exact key s hn none

lemma applyObservablesRun_ok {σ Obs E : Type} [Inhabited Obs]
    (applyObservableE : σ → Obs → Except E σ)
    (states : List σ) (referenceState : σ) (observables : List Obs) (v : ℕ → σ)
    (hlen : states.length = observables.length)
    (hok : ∀ i, i < observables.length →
      applyObservableE referenceState (observables.getD i default) = .ok (v i)) :
    applyObservablesRun applyObservableE states referenceState observables =
      .ok ((List.range observables.length).map v) := by
  unfold applyObservablesRun parForIdxRun
  have hsnd := parForIdxGo_snd
    (fun hi => applyObservableE referenceState (observables.getD hi default))
    (List.range observables.length) states none
  rw [lastErrorOver_none _ _ (fun i hi => (errOf_eq_none _).mpr ⟨v i, hok i hi⟩)] at hsnd
  have hfst := parForIdxGo_fst
    (fun hi => applyObservableE referenceState (observables.getD hi default))
    (List.range observables.length) states none
  rw [List.foldl_ext _ (fun acc i => acc.set i (v i)) states
    (fun a i hi => by rw [hok i (List.mem_range.mp hi)])] at hfst
  rcases hgo : parForIdxGo
      (fun hi => applyObservableE referenceState (observables.getD hi default))
      (List.range observables.length) states none with ⟨st, ex⟩
  rw [hgo] at hsnd hfst
  simp only at hsnd hfst
  subst hsnd
  have : st = (List.range observables.length).map v := by
    apply List.ext_getElem?
    intro j
    rw [hfst, foldl_set_getElem?, List.getElem?_map]
    by_cases hj : j < observables.length
    · rw [List.getElem?_range hj]
      simp [List.mem_range, hj, hlen]
    · have h1 : (List.range observables.length)[j]? = none :=
        List.getElem?_eq_none (by rw [List.length_range]; omega)
      rw [h1, if_neg (by simp [List.mem_range, hj])]
      rw [List.getElem?_eq_none (by rw [hlen]; omega)]
      rfl
  rw [this]

/-! ## Claims -/

lemma rotMatrix_if (inv : Bool) (phi theta omega : ℝ) :
    (if inv then getRot (-omega) (-theta) (-phi) else getRot phi theta omega) =
      (if inv then (opRot phi theta omega).conjTranspose else opRot phi theta omega) := by
  cases inv
  · show getRot phi theta omega = opRot phi theta omega
    rfl
  · show getRot (-omega) (-theta) (-phi) = (opRot phi theta omega).conjTranspose
    exact getRot_neg_eq_ct phi theta omega

/-- C1: for each gate of `GateImplementationsAVX512::implemented_gates` that
also has a reference matrix in `operations.hpp` (PauliX, PauliY, Hadamard,
S, RX, RZ, Rot), the AVX512 entry point computes, for every `num_qubits`,
every valid wire and every inverse flag, exactly the state-vector
transformation of the reference gate matrix (conjugate-transposed when the
inverse flag is set) applied via the generic single-qubit path at the
reverse-wire bit position. -/
theorem claim_C1 (p : Precision) (n w : ℕ) (inv : Bool) (theta phi omega : ℝ)
    (s : ℕ → ℂ) (hw : w < n) :
    avx512ApplyPauliX p n w inv s =
      applyGate1q (if inv then opX.conjTranspose else opX) (revWire n w) s ∧
    avx512ApplyPauliY p n w inv s =
      applyGate1q (if inv then opY.conjTranspose else opY) (revWire n w) s ∧
    avx512ApplyHadamard p n w inv s =
      applyGate1q (if inv then opH.conjTranspose else opH) (revWire n w) s ∧
    avx512ApplyS p n w inv s =
      applyGate1q (if inv then opS.conjTranspose else opS) (revWire n w) s ∧
    avx512ApplyRX p n w inv theta s =
      applyGate1q (if inv then (opRX theta).conjTranspose else opRX theta) (revWire n w) s ∧
    avx512ApplyRZ p n w inv theta s =
      applyGate1q (if inv then (opRZ theta).conjTranspose else opRZ theta) (revWire n w) s ∧
    avx512ApplyRot p n w inv phi theta omega s =
      applyGate1q (if inv then (opRot phi theta omega).conjTranspose else opRot phi theta omega)
        (revWire n w) s :=
  ⟨(avx512ApplyPauliX_eq p n w inv s).trans (pauliXKernel_matrix (revWire n w) inv s),
   (avx512ApplyPauliY_eq p n w inv s).trans (pauliYKernel_matrix (revWire n w) inv s),
   (avx512ApplyHadamard_eq p n w inv s).trans (hadamardKernel_matrix (revWire n w) inv s),
   (avx512ApplyS_eq p n w inv s).trans (sKernel_matrix (revWire n w) inv s),
   (avx512ApplyRX_eq p n w inv theta s).trans (rxKernel_matrix (revWire n w) inv theta s),
   (avx512ApplyRZ_eq p n w inv theta s).trans (rzKernel_matrix (revWire n w) inv theta s),
   (avx512ApplyRot_eq p n w inv phi theta omega s).trans
     (congrArg (fun m => applyGate1q m (revWire n w) s) (rotMatrix_if inv phi theta omega))⟩

/-- Witness for C1 at a concrete instance (`float`, one qubit, wire 0,
angles 0, zero state). -/
theorem claim_C1_witness :
    (0 : ℕ) < 1 ∧
    (avx512ApplyPauliX Precision.float 1 0 false (fun _ => 0) =
      applyGate1q (if false then opX.conjTranspose else opX) (revWire 1 0) (fun _ => 0) ∧
    avx512ApplyPauliY Precision.float 1 0 false (fun _ => 0) =
      applyGate1q (if false then opY.conjTranspose else opY) (revWire 1 0) (fun _ => 0) ∧
    avx512ApplyHadamard Precision.float 1 0 false (fun _ => 0) =
      applyGate1q (if false then opH.conjTranspose else opH) (revWire 1 0) (fun _ => 0) ∧
    avx512ApplyS Precision.float 1 0 false (fun _ => 0) =
      applyGate1q (if false then opS.conjTranspose else opS) (revWire 1 0) (fun _ => 0) ∧
    avx512ApplyRX Precision.float 1 0 false 0 (fun _ => 0) =
      applyGate1q (if false then (opRX 0).conjTranspose else opRX 0) (revWire 1 0) (fun _ => 0) ∧
    avx512ApplyRZ Precision.float 1 0 false 0 (fun _ => 0) =
      applyGate1q (if false then (opRZ 0).conjTranspose else opRZ 0) (revWire 1 0) (fun _ => 0) ∧
    avx512ApplyRot Precision.float 1 0 false 0 0 0 (fun _ => 0) =
      applyGate1q (if false then (opRot 0 0 0).conjTranspose else opRot 0 0 0)
        (revWire 1 0) (fun _ => 0)) :=
  ⟨by decide, claim_C1 Precision.float 1 0 false 0 0 0 (fun _ => 0) (by decide)⟩

/-- C2: for every entry point of the AVX512 kernel family (its whole
`implemented_gates` set), applying the operation with `inverse = false`
and then with `inverse = true` — same wires, same parameters — restores
the original amplitude buffer exactly. -/
theorem claim_C2 (p : Precision) (n w w0 w1 : ℕ) (theta phi omega : ℝ) (s : ℕ → ℂ)
    (hw : w < n) (hw0 : w0 < n) (hw1 : w1 < n) (hne : w0 ≠ w1) :
    avx512ApplyPauliX p n w true (avx512ApplyPauliX p n w false s) = s ∧
    avx512ApplyPauliY p n w true (avx512ApplyPauliY p n w false s) = s ∧
    avx512ApplyHadamard p n w true (avx512ApplyHadamard p n w false s) = s ∧
    avx512ApplyS p n w true (avx512ApplyS p n w false s) = s ∧
    avx512ApplyRX p n w true theta (avx512ApplyRX p n w false theta s) = s ∧
    avx512ApplyRZ p n w true theta (avx512ApplyRZ p n w false theta s) = s ∧
    avx512ApplyRot p n w true phi theta omega
      (avx512ApplyRot p n w false phi theta omega s) = s ∧
    avx512ApplyCZ p n w0 w1 true (avx512ApplyCZ p n w0 w1 false s) = s ∧
    avx512ApplyIsingZZ p n w0 w1 true theta
      (avx512ApplyIsingZZ p n w0 w1 false theta s) = s ∧
    avx512ApplySWAP p n w0 w1 true (avx512ApplySWAP p n w0 w1 false s) = s :=
  ⟨(congrArg (avx512ApplyPauliX p n w true) (avx512ApplyPauliX_eq p n w false s)).trans
     ((avx512ApplyPauliX_eq p n w true _).trans (pauliXKernel_involutive (revWire n w) s)),
   (congrArg (avx512ApplyPauliY p n w true) (avx512ApplyPauliY_eq p n w false s)).trans
     ((avx512ApplyPauliY_eq p n w true _).trans (pauliYKernel_involutive (revWire n w) s)),
   (congrArg (avx512ApplyHadamard p n w true) (avx512ApplyHadamard_eq p n w false s)).trans
     ((avx512ApplyHadamard_eq p n w true _).trans (hadamardKernel_involutive (revWire n w) s)),
   (congrArg (avx512ApplyS p n w true) (avx512ApplyS_eq p n w false s)).trans
     ((avx512ApplyS_eq p n w true _).trans (sKernel_roundtrip (revWire n w) s)),
   (congrArg (avx512ApplyRX p n w true theta) (avx512ApplyRX_eq p n w false theta s)).trans
     ((avx512ApplyRX_eq p n w true theta _).trans (rxKernel_roundtrip (revWire n w) theta s)),
   (congrArg (avx512ApplyRZ p n w true theta) (avx512ApplyRZ_eq p n w false theta s)).trans
     ((avx512ApplyRZ_eq p n w true theta _).trans (rzKernel_roundtrip (revWire n w) theta s)),
   (congrArg (avx512ApplyRot p n w true phi theta omega)
       (avx512ApplyRot_eq p n w false phi theta omega s)).trans
     ((avx512ApplyRot_eq p n w true phi theta omega _).trans
       ((applyGate1q_comp (getRot (-omega) (-theta) (-phi)) (getRot phi theta omega)
           (revWire n w) s).trans
         ((congrArg (fun m => applyGate1q m (revWire n w) s)
             (getRot_inverse_product phi theta omega)).trans
           (applyGate1q_one (revWire n w) s)))),
   (congrArg (avx512ApplyCZ p n w0 w1 true) (avx512ApplyCZ_eq p n w0 w1 false s)).trans
     ((avx512ApplyCZ_eq p n w0 w1 true _).trans
       (czKernel_involutive (revWire n w1) (revWire n w0) s)),
   (congrArg (avx512ApplyIsingZZ p n w0 w1 true theta)
       (avx512ApplyIsingZZ_eq p n w0 w1 false theta s)).trans
     ((avx512ApplyIsingZZ_eq p n w0 w1 true theta _).trans
       (isingZZKernel_roundtrip (revWire n w1) (revWire n w0) theta s)),
   (congrArg (avx512ApplySWAP p n w0 w1 true)
       (avx512ApplySWAP_eq p n w0 w1 false s hw0 hw1 hne)).trans
     ((avx512ApplySWAP_eq p n w0 w1 true _ hw0 hw1 hne).trans
       (swapKernel_involutive (revWire n w1) (revWire n w0) s))⟩

/-- Witness for C2 at a concrete instance (two qubits, wires 0 and 1,
angles 0, zero state). -/
theorem claim_C2_witness :
    ((0 : ℕ) < 2 ∧ (0 : ℕ) < 2 ∧ (1 : ℕ) < 2 ∧ (0 : ℕ) ≠ 1) ∧
    (avx512ApplyPauliX Precision.double 2 0 true
      (avx512ApplyPauliX Precision.double 2 0 false (fun _ => 0)) = (fun _ => 0) ∧
    avx512ApplyPauliY Precision.double 2 0 true
      (avx512ApplyPauliY Precision.double 2 0 false (fun _ => 0)) = (fun _ => 0) ∧
    avx512ApplyHadamard Precision.double 2 0 true
      (avx512ApplyHadamard Precision.double 2 0 false (fun _ => 0)) = (fun _ => 0) ∧
    avx512ApplyS Precision.double 2 0 true
      (avx512ApplyS Precision.double 2 0 false (fun _ => 0)) = (fun _ => 0) ∧
    avx512ApplyRX Precision.double 2 0 true 0
      (avx512ApplyRX Precision.double 2 0 false 0 (fun _ => 0)) = (fun _ => 0) ∧
    avx512ApplyRZ Precision.double 2 0 true 0
      (avx512ApplyRZ Precision.double 2 0 false 0 (fun _ => 0)) = (fun _ => 0) ∧
    avx512ApplyRot Precision.double 2 0 true 0 0 0
      (avx512ApplyRot Precision.double 2 0 false 0 0 0 (fun _ => 0)) = (fun _ => 0) ∧
    avx512ApplyCZ Precision.double 2 0 1 true
      (avx512ApplyCZ Precision.double 2 0 1 false (fun _ => 0)) = (fun _ => 0) ∧
    avx512ApplyIsingZZ Precision.double 2 0 1 true 0
      (avx512ApplyIsingZZ Precision.double 2 0 1 false 0 (fun _ => 0)) = (fun _ => 0) ∧
    avx512ApplySWAP Precision.double 2 0 1 true
      (avx512ApplySWAP Precision.double 2 0 1 false (fun _ => 0)) = (fun _ => 0)) :=
  ⟨by decide,
   claim_C2 Precision.double 2 0 0 1 0 0 0 (fun _ => 0)
     (by decide) (by decide) (by decide) (by decide)⟩

/-- C3: when at least one iteration of the parallel observable loop throws
(with at least two observables), `applyObservables` propagates exactly one
exception, and only after every loop iteration has run: the propagated
exception is the one of the *last* failing index, and every iteration after
it still ran to a normal completion; the caller receives no state list.
The same failure contract holds for `applyOperationsAdj`. -/
theorem claim_C3 {σ Obs E : Type} [Inhabited Obs]
    (applyObservableE : σ → Obs → Except E σ)
    (applyOperationE : σ → String → List ℕ → Bool → List ℝ → Except E σ)
    (states adjStates : List σ) (referenceState : σ) (observables : List Obs)
    (operations : OpsData) (opIdx : ℕ)
    (hN : 2 ≤ observables.length)
    (j : ℕ) (hj : j < observables.length) (e : E)
    (hthrow : applyObservableE referenceState (observables.getD j default) = .error e)
    (st0 : σ) (hmem : st0 ∈ adjStates) (e2 : E)
    (hthrow2 : applyOperationE st0 (operations.opsNames.getD opIdx (""))
      (operations.opsWires.getD opIdx [])
      (!(operations.opsInverses.getD opIdx false))
      (operations.opsParams.getD opIdx []) = .error e2) :
    (∃ e0 j0, j0 < observables.length ∧
      applyObservableE referenceState (observables.getD j0 default) = .error e0 ∧
      (∀ k, j0 < k → k < observables.length →
        ∃ y, applyObservableE referenceState (observables.getD k default) = .ok y) ∧
      applyObservablesRun applyObservableE states referenceState observables = .error e0) ∧
    (∃ e1, applyOperationsAdjRun applyOperationE adjStates operations opIdx = .error e1) := by
  constructor
  · have hfj : (errOf (applyObservableE referenceState (observables.getD j default))).isSome := by
      rw [(errOf_eq_some _ e).mpr hthrow]
      rfl
    obtain ⟨j0, hj0n, hj0s, hj0eq, hj0after⟩ :=
      lastErrorOver_last_failure
        (fun i => errOf (applyObservableE referenceState (observables.getD i default)))
        observables.length j hj hfj
    obtain ⟨e0, he0⟩ := Option.isSome_iff_exists.mp hj0s
    refine ⟨e0, j0, hj0n, (errOf_eq_some _ e0).mp he0, ?_, ?_⟩
    · intro k hk1 hk2
      exact (errOf_eq_none _).mp (hj0after k hk1 hk2)
    · unfold applyObservablesRun parForIdxRun
      have hsnd := parForIdxGo_snd
        (fun hi => applyObservableE referenceState (observables.getD hi default))
        (List.range observables.length) states none
      rw [hj0eq, he0] at hsnd
      rcases hgo : parForIdxGo
          (fun hi => applyObservableE referenceState (observables.getD hi default))
          (List.range observables.length) states none with ⟨st, ex⟩
      rw [hgo] at hsnd
      simp only at hsnd
      subst hsnd
      rfl
  · have hs := parForElemGo_fail
      (fun st => applyOperationE st (operations.opsNames.getD opIdx (""))
        (operations.opsWires.getD opIdx [])
        (!(operations.opsInverses.getD opIdx false))
        (operations.opsParams.getD opIdx []))
      adjStates none st0 hmem e2 hthrow2
    obtain ⟨e1, he1⟩ := Option.isSome_iff_exists.mp hs
    refine ⟨e1, ?_⟩
    unfold applyOperationsAdjRun
    rcases hgo : parForElemGo
        (fun st => applyOperationE st (operations.opsNames.getD opIdx (""))
          (operations.opsWires.getD opIdx [])
          (!(operations.opsInverses.getD opIdx false))
          (operations.opsParams.getD opIdx []))
        adjStates none with ⟨st, ex⟩
    rw [hgo] at he1
    simp only at he1
    subst he1
    rfl

/-- Witness for C3: two observables where the second throws, and one
adjoint state whose application throws. -/
theorem claim_C3_witness :
    (2 ≤ ([1, 0] : List ℕ).length ∧ (1 : ℕ) < ([1, 0] : List ℕ).length ∧
      (fun (r o : ℕ) => if o = 0 then (Except.error 7 : Except ℕ ℕ) else .ok (r + o)) 0
        (([1, 0] : List ℕ).getD 1 default) = .error 7 ∧
      (5 : ℕ) ∈ ([5] : List ℕ) ∧
      (fun (st : ℕ) (_ : String) (_ : List ℕ) (_ : Bool) (_ : List ℝ) =>
        (Except.error 3 : Except ℕ ℕ)) 5
        ((OpsData.mk [] [] [] []).opsNames.getD 0 (""))
        ((OpsData.mk [] [] [] []).opsWires.getD 0 [])
        (!((OpsData.mk [] [] [] []).opsInverses.getD 0 false))
        ((OpsData.mk [] [] [] []).opsParams.getD 0 []) = .error 3) ∧
    ((∃ e0 j0, j0 < ([1, 0] : List ℕ).length ∧
      (fun (r o : ℕ) => if o = 0 then (Except.error 7 : Except ℕ ℕ) else .ok (r + o)) 0
        (([1, 0] : List ℕ).getD j0 default) = .error e0 ∧
      (∀ k, j0 < k → k < ([1, 0] : List ℕ).length →
        ∃ y, (fun (r o : ℕ) => if o = 0 then (Except.error 7 : Except ℕ ℕ) else .ok (r + o)) 0
          (([1, 0] : List ℕ).getD k default) = .ok y) ∧
      applyObservablesRun
        (fun (r o : ℕ) => if o = 0 then (Except.error 7 : Except ℕ ℕ) else .ok (r + o))
        [0, 0] 0 [1, 0] = .error e0) ∧
    (∃ e1, applyOperationsAdjRun
      (fun (st : ℕ) (_ : String) (_ : List ℕ) (_ : Bool) (_ : List ℝ) =>
        (Except.error 3 : Except ℕ ℕ))
      [5] (OpsData.mk [] [] [] []) 0 = .error e1)) :=
  ⟨⟨by decide, by decide, rfl, by decide, rfl⟩,
   claim_C3
     (fun (r o : ℕ) => if o = 0 then (Except.error 7 : Except ℕ ℕ) else .ok (r + o))
     (fun (st : ℕ) (_ : String) (_ : List ℕ) (_ : Bool) (_ : List ℝ) =>
       (Except.error 3 : Except ℕ ℕ))
     [0, 0] [5] 0 [1, 0] (OpsData.mk [] [] [] []) 0
     (by decide) 1 (by decide) 7 rfl 5 (by decide) 3 rfl⟩

/-- C4: `applyOperationAdj` applies the indexed operation with name, wires
and parameters unchanged and the inverse flag negated; in particular a
record already marked inverse is applied non-inverted; and
`applyOperationsAdj` applies this same adjointed operation to every state
in the list. -/
theorem claim_C4 {σ : Type} (applyOperation : σ → String → List ℕ → Bool → List ℝ → σ)
    (state : σ) (states : List σ) (operations : OpsData) (i : ℕ)
    (hi : i < operations.opsNames.length) :
    applyOperationAdj applyOperation state operations i =
      applyOperation state (operations.opsNames.getD i ("")) (operations.opsWires.getD i [])
        (!(operations.opsInverses.getD i false)) (operations.opsParams.getD i []) ∧
    (operations.opsInverses.getD i false = true →
      applyOperationAdj applyOperation state operations i =
        applyOperation state (operations.opsNames.getD i ("")) (operations.opsWires.getD i [])
          false (operations.opsParams.getD i [])) ∧
    applyOperationsAdjRun
        (fun st nm ws iv ps => (Except.ok (applyOperation st nm ws iv ps) : Except Unit σ))
        states operations i =
      Except.ok (states.map (fun st => applyOperationAdj applyOperation st operations i)) := by
  refine ⟨rfl, ?_, ?_⟩
  · intro h
    unfold applyOperationAdj
    rw [h]
    rfl
  · unfold applyOperationsAdjRun
    rw [parForElemGo_total]
    rfl

/-- Witness for C4 on a one-operation record marked inverse and two states. -/
theorem claim_C4_witness :
    (0 : ℕ) < (OpsData.mk ["RX"] [[0]] [true] [[1]]).opsNames.length ∧
    (applyOperationAdj (fun (st : ℕ) _ _ iv _ => if iv then st else st + 1) 4
        (OpsData.mk ["RX"] [[0]] [true] [[1]]) 0 =
      (fun (st : ℕ) (_ : String) (_ : List ℕ) (iv : Bool) (_ : List ℝ) =>
        if iv then st else st + 1) 4
        ((OpsData.mk ["RX"] [[0]] [true] [[1]]).opsNames.getD 0 (""))
        ((OpsData.mk ["RX"] [[0]] [true] [[1]]).opsWires.getD 0 [])
        (!((OpsData.mk ["RX"] [[0]] [true] [[1]]).opsInverses.getD 0 false))
        ((OpsData.mk ["RX"] [[0]] [true] [[1]]).opsParams.getD 0 []) ∧
    ((OpsData.mk ["RX"] [[0]] [true] [[1]]).opsInverses.getD 0 false = true →
      applyOperationAdj (fun (st : ℕ) _ _ iv _ => if iv then st else st + 1) 4
          (OpsData.mk ["RX"] [[0]] [true] [[1]]) 0 =
        (fun (st : ℕ) (_ : String) (_ : List ℕ) (iv : Bool) (_ : List ℝ) =>
          if iv then st else st + 1) 4
          ((OpsData.mk ["RX"] [[0]] [true] [[1]]).opsNames.getD 0 (""))
          ((OpsData.mk ["RX"] [[0]] [true] [[1]]).opsWires.getD 0 [])
          false
          ((OpsData.mk ["RX"] [[0]] [true] [[1]]).opsParams.getD 0 [])) ∧
    applyOperationsAdjRun
        (fun (st : ℕ) nm ws iv ps =>
          (Except.ok ((fun (st : ℕ) (_ : String) (_ : List ℕ) (iv : Bool) (_ : List ℝ) =>
            if iv then st else st + 1) st nm ws iv ps) : Except Unit ℕ))
        [4, 9] (OpsData.mk ["RX"] [[0]] [true] [[1]]) 0 =
      Except.ok (([4, 9] : List ℕ).map
        (fun st => applyOperationAdj
          (fun (st : ℕ) (_ : String) (_ : List ℕ) (iv : Bool) (_ : List ℝ) =>
            if iv then st else st + 1) st (OpsData.mk ["RX"] [[0]] [true] [[1]]) 0))) :=
  ⟨by decide,
   claim_C4 (fun (st : ℕ) (_ : String) (_ : List ℕ) (iv : Bool) (_ : List ℝ) =>
     if iv then st else st + 1) 4 [4, 9] (OpsData.mk ["RX"] [[0]] [true] [[1]]) 0 (by decide)⟩

/-- C5: whenever `num_qubits` is below the minimum internal-wire count of
the packing width (3 for `float`, 2 for `double` — the same threshold the
source writes as an explicit constant in `applyS` and `applySWAP`), every
AVX512 entry point delegates the entire application to the corresponding
`GateImplementationsLM` function with identical arguments; `applyRot`
(which has no guard of its own) synthesizes the rotation matrix and
delegates through `applySingleQubitOp` to the generic single-qubit path. -/
theorem claim_C5 (p : Precision) (n : ℕ) (hn : n < internalWires p)
    (m : Matrix (Fin 2) (Fin 2) ℂ) (w w0 w1 : ℕ) (inv : Bool)
    (theta phi omega : ℝ) (s : ℕ → ℂ) :
    avx512ApplySingleQubitOp p n m w inv s = lmApplySingleQubitOp n m w inv s ∧
    avx512ApplyPauliX p n w inv s = lmApplyPauliX n w inv s ∧
    avx512ApplyPauliY p n w inv s = lmApplyPauliY n w inv s ∧
    avx512ApplyPauliZ p n w inv s = lmApplyPauliZ n w inv s ∧
    avx512ApplyHadamard p n w inv s = lmApplyHadamard n w inv s ∧
    avx512ApplyS p n w inv s = lmApplyS n w inv s ∧
    avx512ApplyRX p n w inv theta s = lmApplyRX n w inv theta s ∧
    avx512ApplyRZ p n w inv theta s = lmApplyRZ n w inv theta s ∧
    avx512ApplyCZ p n w0 w1 inv s = lmApplyCZ n w0 w1 inv s ∧
    avx512ApplyIsingZZ p n w0 w1 inv theta s = lmApplyIsingZZ n w0 w1 inv theta s ∧
    avx512ApplySWAP p n w0 w1 inv s = lmApplySWAP n w0 w1 inv s ∧
    avx512ApplyRot p n w inv phi theta omega s =
      lmApplySingleQubitOp n
        (if inv then getRot (-omega) (-theta) (-phi) else getRot phi theta omega)
        w false s := by
  refine ⟨?_, ?_, ?_, ?_, ?_, ?_, ?_, ?_, ?_, ?_, ?_, ?_⟩
  · unfold avx512ApplySingleQubitOp
    rw [if_pos hn]
  · unfold avx512ApplyPauliX
    rw [if_pos hn]
  · unfold avx512ApplyPauliY
    rw [if_pos hn]
  · unfold avx512ApplyPauliZ
    rw [if_pos hn]
  · unfold avx512ApplyHadamard
    rw [if_pos hn]
  · cases p
    · simp only [avx512ApplyS]
      rw [if_pos (show n < 3 from hn)]
    · simp only [avx512ApplyS]
      rw [if_pos (show n < 2 from hn)]
  · unfold avx512ApplyRX
    rw [if_pos hn]
  · unfold avx512ApplyRZ
    rw [if_pos hn]
  · unfold avx512ApplyCZ
    rw [if_pos hn]
  · unfold avx512ApplyIsingZZ
    rw [if_pos hn]
  · cases p
    · simp only [avx512ApplySWAP]
      rw [if_pos (show n < 3 from hn)]
    · simp only [avx512ApplySWAP]
      rw [if_pos (show n < 2 from hn)]
  · unfold avx512ApplyRot avx512ApplySingleQubitOp
    rw [if_pos hn]

/-- Witness for C5 at `float`, two qubits (below the `float` threshold 3). -/
theorem claim_C5_witness :
    (2 : ℕ) < internalWires Precision.float ∧
    (avx512ApplySingleQubitOp Precision.float 2 1 0 false (fun _ => 0) =
      lmApplySingleQubitOp 2 1 0 false (fun _ => 0) ∧
    avx512ApplyPauliX Precision.float 2 0 false (fun _ => 0) =
      lmApplyPauliX 2 0 false (fun _ => 0) ∧
    avx512ApplyPauliY Precision.float 2 0 false (fun _ => 0) =
      lmApplyPauliY 2 0 false (fun _ => 0) ∧
    avx512ApplyPauliZ Precision.float 2 0 false (fun _ => 0) =
      lmApplyPauliZ 2 0 false (fun _ => 0) ∧
    avx512ApplyHadamard Precision.float 2 0 false (fun _ => 0) =
      lmApplyHadamard 2 0 false (fun _ => 0) ∧
    avx512ApplyS Precision.float 2 0 false (fun _ => 0) =
      lmApplyS 2 0 false (fun _ => 0) ∧
    avx512ApplyRX Precision.float 2 0 false 0 (fun _ => 0) =
      lmApplyRX 2 0 false 0 (fun _ => 0) ∧
    avx512ApplyRZ Precision.float 2 0 false 0 (fun _ => 0) =
      lmApplyRZ 2 0 false 0 (fun _ => 0) ∧
    avx512ApplyCZ Precision.float 2 0 1 false (fun _ => 0) =
      lmApplyCZ 2 0 1 false (fun _ => 0) ∧
    avx512ApplyIsingZZ Precision.float 2 0 1 false 0 (fun _ => 0) =
      lmApplyIsingZZ 2 0 1 false 0 (fun _ => 0) ∧
    avx512ApplySWAP Precision.float 2 0 1 false (fun _ => 0) =
      lmApplySWAP 2 0 1 false (fun _ => 0) ∧
    avx512ApplyRot Precision.float 2 0 false 0 0 0 (fun _ => 0) =
      lmApplySingleQubitOp 2
        (if false then getRot (-0) (-0) (-0) else getRot 0 0 0) 0 false (fun _ => 0)) :=
  ⟨by decide,
   claim_C5 Precision.float 2 (by decide) 1 0 0 1 false 0 0 0 (fun _ => 0)⟩

/-- C6 counterexample: the claim's "dispatched to the internal path iff the
reverse-wire index is below log2 of the packing width" fails for calls
caught by the crossover guard: at `float` precision with `num_qubits = 2`
and wire 0, the reverse wire 1 is below 3, yet the call is routed to the
LM delegate, not to an internal kernel. -/
theorem claim_C6_counterexample :
    revWire 2 0 < 3 ∧
    avx512SingleQubitOpRoute Precision.float 2 0 = KernelRoute.lmDelegate ∧
    avx512SingleQubitOpRoute Precision.float 2 0 ≠ KernelRoute.internal (revWire 2 0) := by
  decide

/-- C6 (amended): for every kernel call that passes the crossover guard
(`num_qubits ≥` the internal-wire minimum), the bit position used is the
reverse wire `n - w - 1`, and a wire is dispatched to the internal path iff
its reverse-wire index is below log2 of the packing width (3 for `float`,
2 for `double`), else to the external path; two-wire gates classify both
wires and select the three sub-cases (both internal; one internal via the
minimum reverse-wire index; both external) accordingly. -/
theorem claim_C6 (p : Precision) (n w w0 w1 : ℕ) (inv : Bool) (s : ℕ → ℂ)
    (hn : internalWires p ≤ n) :
    avx512ApplyPauliX p n w inv s = pauliXKernel (revWire n w) s ∧
    (avx512SingleQubitOpRoute p n w = KernelRoute.internal (revWire n w) ∨
      avx512SingleQubitOpRoute p n w = KernelRoute.external (revWire n w)) ∧
    (avx512SingleQubitOpRoute p n w = KernelRoute.internal (revWire n w) ↔
      revWire n w < internalWires p) ∧
    (avx512SingleQubitOpRoute p n w = KernelRoute.external (revWire n w) ↔
      internalWires p ≤ revWire n w) ∧
    (avx512CZRoute p n w0 w1 = TwoWireRoute.internalInternal ↔
      revWire n w1 < internalWires p ∧ revWire n w0 < internalWires p) ∧
    (avx512CZRoute p n w0 w1 = TwoWireRoute.internalExternal ↔
      (min (revWire n w1) (revWire n w0) < internalWires p ∧
        ¬(revWire n w1 < internalWires p ∧ revWire n w0 < internalWires p))) ∧
    (avx512CZRoute p n w0 w1 = TwoWireRoute.externalExternal ↔
      internalWires p ≤ min (revWire n w1) (revWire n w0)) := by
  have hn' : ¬n < internalWires p := not_lt.mpr hn
  rw [avx512SingleQubitOpRoute_char p n w hn', avx512CZRoute_char p n w0 w1 hn']
  refine ⟨(avx512ApplyPauliX_eq p n w inv s), ?_, ?_, ?_, ?_, ?_, ?_⟩
  · split
    · exact Or.inl rfl
    · exact Or.inr rfl
  · split
    · rename_i h
      simp [h]
    · rename_i h
      simp [h]
  · split
    · rename_i h
      simp [h]
    · rename_i h
      simp [not_lt.mp h]
  · split
    · rename_i h
      simp [h]
    · split
      · rename_i h2
        simp_all
      · rename_i h h2
        simp_all
  · split
    · rename_i h
      simp [h]
    · split
      · rename_i h h2
        simp_all
      · rename_i h h2
        simp_all
  · split
    · rename_i h
      constructor
      · intro hc
        cases hc
      · intro hc
        omega
    · split
      · rename_i h h2
        constructor
        · intro hc
          cases hc
        · intro hc
          omega
      · rename_i h h2
        simp only [true_iff]
        omega

/-- Witness for C6 at `float`, four qubits, wires 0, 0, 1. -/
theorem claim_C6_witness :
    internalWires Precision.float ≤ 4 ∧
    (avx512ApplyPauliX Precision.float 4 0 false (fun _ => 0) =
      pauliXKernel (revWire 4 0) (fun _ => 0) ∧
    (avx512SingleQubitOpRoute Precision.float 4 0 = KernelRoute.internal (revWire 4 0) ∨
      avx512SingleQubitOpRoute Precision.float 4 0 = KernelRoute.external (revWire 4 0)) ∧
    (avx512SingleQubitOpRoute Precision.float 4 0 = KernelRoute.internal (revWire 4 0) ↔
      revWire 4 0 < internalWires Precision.float) ∧
    (avx512SingleQubitOpRoute Precision.float 4 0 = KernelRoute.external (revWire 4 0) ↔
      internalWires Precision.float ≤ revWire 4 0) ∧
    (avx512CZRoute Precision.float 4 0 1 = TwoWireRoute.internalInternal ↔
      revWire 4 1 < internalWires Precision.float ∧
        revWire 4 0 < internalWires Precision.float) ∧
    (avx512CZRoute Precision.float 4 0 1 = TwoWireRoute.internalExternal ↔
      (min (revWire 4 1) (revWire 4 0) < internalWires Precision.float ∧
        ¬(revWire 4 1 < internalWires Precision.float ∧
          revWire 4 0 < internalWires Precision.float))) ∧
    (avx512CZRoute Precision.float 4 0 1 = TwoWireRoute.externalExternal ↔
      internalWires Precision.float ≤ min (revWire 4 1) (revWire 4 0))) :=
  ⟨by decide, claim_C6 Precision.float 4 0 0 1 false (fun _ => 0) (by decide)⟩

/-- C7: when every observable application succeeds, `applyObservables`
produces, in slot `i`, exactly the result of resetting from the reference
state and applying `observables[i]` — independent of the prior content of
`states` (the result list is expressed from the reference and the
observables alone, and two calls differing only in the initial states
coincide); the reference state is only ever read. -/
theorem claim_C7 {σ Obs E : Type} [Inhabited Obs]
    (applyObservableE : σ → Obs → Except E σ)
    (states states2 : List σ) (referenceState : σ) (observables : List Obs) (v : ℕ → σ)
    (hlen : states.length = observables.length)
    (hlen2 : states2.length = observables.length)
    (hok : ∀ i, i < observables.length →
      applyObservableE referenceState (observables.getD i default) = .ok (v i)) :
    applyObservablesRun applyObservableE states referenceState observables =
      .ok ((List.range observables.length).map v) ∧
    applyObservablesRun applyObservableE states2 referenceState observables =
      applyObservablesRun applyObservableE states referenceState observables :=
  ⟨applyObservablesRun_ok applyObservableE states referenceState observables v hlen hok,
   (applyObservablesRun_ok applyObservableE states2 referenceState observables v hlen2 hok).trans
     (applyObservablesRun_ok applyObservableE states referenceState observables v hlen hok).symm⟩

/-- Witness for C7: two observables applied from reference state 10 to two
different initial state lists. -/
theorem claim_C7_witness :
    (([0, 0] : List ℕ).length = ([1, 2] : List ℕ).length ∧
      ([9, 9] : List ℕ).length = ([1, 2] : List ℕ).length ∧
      ∀ i, i < ([1, 2] : List ℕ).length →
        (fun (r o : ℕ) => (Except.ok (r + o) : Except Unit ℕ)) 10
          (([1, 2] : List ℕ).getD i default) =
          .ok ((fun i => 10 + ([1, 2] : List ℕ).getD i 0) i)) ∧
    (applyObservablesRun (fun (r o : ℕ) => (Except.ok (r + o) : Except Unit ℕ))
        [0, 0] 10 [1, 2] =
      .ok ((List.range ([1, 2] : List ℕ).length).map
        (fun i => 10 + ([1, 2] : List ℕ).getD i 0)) ∧
    applyObservablesRun (fun (r o : ℕ) => (Except.ok (r + o) : Except Unit ℕ))
        [9, 9] 10 [1, 2] =
      applyObservablesRun (fun (r o : ℕ) => (Except.ok (r + o) : Except Unit ℕ))
        [0, 0] 10 [1, 2]) :=
  ⟨⟨by decide, by decide, by
      intro i hi
      simp only [List.length_cons, List.length_nil] at hi
      interval_cases i <;> rfl⟩,
   claim_C7 (fun (r o : ℕ) => (Except.ok (r + o) : Except Unit ℕ))
     [0, 0] [9, 9] 10 [1, 2] (fun i => 10 + ([1, 2] : List ℕ).getD i 0)
     (by decide) (by decide) (by
      intro i hi
      simp only [List.length_cons, List.length_nil] at hi
      interval_cases i <;> rfl)⟩

/-- C8: registration into the kernel dispatch map fails in exactly two
situations — the kernel does not claim the operation, or the new entry has
the same priority as, and an interval overlapping, an existing entry for
the same key — and on failure nothing is inserted (success inserts exactly
the new entry at its key, all other keys untouched); querying a dispatch
set at a qubit count contained in no registered interval fails with
"Cannot find a kernel". -/
theorem claim_C8 (m : OperationKernelMap) (op : GateOperation) (th : Threading)
    (mem : CPUMemoryModel) (priority : ℕ) (interval : IntegerInterval)
    (kernel : KernelType) (s : PriorityDispatchSet) (n : ℕ)
    (hn : ∀ e ∈ s, e.interval.containsQ n = false) :
    ((∃ err, assignKernelForOp m op th mem priority interval kernel = .error err) ↔
      (op ∉ implementedGates kernel ∨
        pdsConflict (m op th mem) priority interval = true)) ∧
    (∀ m2, assignKernelForOp m op th mem priority interval kernel = .ok m2 →
      m2 op th mem = ⟨priority, interval, kernel⟩ :: m op th mem ∧
      ∀ op2 th2 mem2, ¬(op2 = op ∧ th2 = th ∧ mem2 = mem) →
        m2 op2 th2 mem2 = m op2 th2 mem2) ∧
    pdsGetKernel s n = .error ("Cannot find a kernel") := by
  refine ⟨?_, ?_, ?_⟩
  · unfold assignKernelForOp
    split
    · rename_i h
      exact ⟨fun _ => Or.inl h, fun _ => ⟨_, rfl⟩⟩
    · rename_i h
      split
      · rename_i h2
        exact ⟨fun _ => Or.inr h2, fun _ => ⟨_, rfl⟩⟩
      · rename_i h2
        constructor
        · intro ⟨err, herr⟩
          cases herr
        · intro hc
          rcases hc with hc | hc
          · exact absurd hc h
          · rw [hc] at h2
            exact absurd rfl h2
  · intro m2 hm2
    unfold assignKernelForOp at hm2
    split at hm2
    · cases hm2
    · split at hm2
      · cases hm2
      · injection hm2 with hm2
        subst hm2
        constructor
        · exact if_pos ⟨rfl, rfl, rfl⟩
        · intro op2 th2 mem2 hne
          exact if_neg hne
  · unfold pdsGetKernel
    rw [pdsBestEntry_none s n hn]

/-- Witness for C8 reproducing `Test_KernelMap.cpp`: a set holding one
entry `(10, [10,20), PI)` and a query at 30, together with an assignment of
`KernelType::None` for `PauliX`. -/
theorem claim_C8_witness :
    (∀ e ∈ ([⟨10, ⟨10, 20⟩, KernelType.PI⟩] : PriorityDispatchSet),
      e.interval.containsQ 30 = false) ∧
    (((∃ err, assignKernelForOp emptyKernelMap GateOperation.PauliX Threading.SingleThread
        CPUMemoryModel.Unaligned 0 ⟨0, 100⟩ KernelType.None = .error err) ↔
      (GateOperation.PauliX ∉ implementedGates KernelType.None ∨
        pdsConflict (emptyKernelMap GateOperation.PauliX Threading.SingleThread
          CPUMemoryModel.Unaligned) 0 ⟨0, 100⟩ = true)) ∧
    (∀ m2, assignKernelForOp emptyKernelMap GateOperation.PauliX Threading.SingleThread
        CPUMemoryModel.Unaligned 0 ⟨0, 100⟩ KernelType.None = .ok m2 →
      m2 GateOperation.PauliX Threading.SingleThread CPUMemoryModel.Unaligned =
        ⟨0, ⟨0, 100⟩, KernelType.None⟩ ::
          emptyKernelMap GateOperation.PauliX Threading.SingleThread CPUMemoryModel.Unaligned ∧
      ∀ op2 th2 mem2, ¬(op2 = GateOperation.PauliX ∧ th2 = Threading.SingleThread ∧
          mem2 = CPUMemoryModel.Unaligned) →
        m2 op2 th2 mem2 = emptyKernelMap op2 th2 mem2) ∧
    pdsGetKernel ([⟨10, ⟨10, 20⟩, KernelType.PI⟩] : PriorityDispatchSet) 30 =
      .error ("Cannot find a kernel")) :=
  ⟨by decide,
   claim_C8 emptyKernelMap GateOperation.PauliX Threading.SingleThread
     CPUMemoryModel.Unaligned 0 ⟨0, 100⟩ KernelType.None
     [⟨10, ⟨10, 20⟩, KernelType.PI⟩] 30 (by decide)⟩

/-- C9: the initializer list of `TwoQubitOpsOneParam` registers the two
distinct rotation gates `CRX` and `CRY` under the same key `"CRY"`, so the
constructed map has exactly the keys `"CRY"` and `"CRZ"`, has no entry for
`"CRX"`, and looking up `"CRY"` yields only one of the two intended gate
bindings (the `CRX` matrix function; the `CRY` binding is discarded). -/
theorem claim_C9 :
    TwoQubitOpsOneParam.map Prod.fst = ["CRY", "CRZ"] ∧
    mapLookup TwoQubitOpsOneParam "CRX" = none ∧
    mapLookup TwoQubitOpsOneParam "CRY" = some opCRX ∧
    (∀ f, mapLookup TwoQubitOpsOneParam "CRY" = some f → f ≠ opCRY) ∧
    opCRX ≠ opCRY := by
  refine ⟨rfl, rfl, rfl, ?_, opCRX_ne_opCRY⟩
  intro f hf
  have : f = opCRX := by
    have h0 : mapLookup TwoQubitOpsOneParam "CRY" = some opCRX := rfl
    rw [h0] at hf
    exact (Option.some.injEq _ _ ▸ hf).symm
  rw [this]
  exact opCRX_ne_opCRY

/-- C10: `GateImplementationsAVX512` defines an `applyPauliZ` member, yet
`PauliZ` is absent from its `implemented_gates`, so the claimed operation
set is a strict subset of the defined apply functions, and — under the
registration rule rejecting kernels that do not claim an operation — the
AVX512 family can never be registered (hence never dispatched) for
`PauliZ`. -/
theorem claim_C10 :
    GateOperation.PauliZ ∈ avx512DefinedApplyFunctions ∧
    GateOperation.PauliZ ∉ avx512ImplementedGates ∧
    avx512ImplementedGates.all (fun g => decide (g ∈ avx512DefinedApplyFunctions)) = true ∧
    avx512ImplementedGates ≠ avx512DefinedApplyFunctions ∧
    assignKernelForOp emptyKernelMap GateOperation.PauliZ Threading.SingleThread
        CPUMemoryModel.Unaligned 0 ⟨0, 100⟩ KernelType.AVX512 =
      .error ("The given kernel does not implement the operation") :=
  ⟨by decide, by decide, by decide, by decide, rfl⟩
